import Mathlib

/-!
# Hotel room reservation system

A shallow embedding of `hotel.cpp` and a verification of its reservation logic.

Modelling conventions.

* The global variables (`rooms`, `totalRooms`, `singleRoomsCount`, `doubleRoomsCount`)
  form the record `Globals`, passed explicitly.
* `int` values are `Int`; every arithmetic expression of the program stays far inside
  the 32-bit range, so no wrap-around occurs.  `double` values are exact rationals `ℚ`.
* `rooms[i]` is a fallible access: an index outside the vector makes the embedded
  function return `none` (undefined behaviour in C++).
* Standard input is a list of input items, one per read operation; reading past the
  end of the list gives `none` (the program would wait, or spin, forever).
  `rand()` draws from a stream of natural numbers.
* Console output is returned as data (reports) instead of text.
-/

namespace Hotel

/-! ## Data model -/

/-- The `struct Room` of the program. -/
structure Room where
  number : Int
  isSingle : Bool
  isBooked : Bool
  reservationId : Int
  guestName : String
  nights : Int
  basePrice : ℚ
  discountRate : ℚ
  includesBreakfast : Bool
  deriving DecidableEq

/-- The global variables of the program. -/
structure Globals where
  rooms : List Room
  totalRooms : Int
  singleRoomsCount : Int
  doubleRoomsCount : Int
  deriving DecidableEq

/-- A value-initialised `Room`, as produced by `vector::resize`. -/
def Room.zero : Room :=
  { number := 0, isSingle := false, isBooked := false, reservationId := 0,
    guestName := "", nights := 0, basePrice := 0, discountRate := 0,
    includesBreakfast := false }

/-- The globals at program start: an empty vector and zero counters. -/
def Globals.start : Globals :=
  { rooms := [], totalRooms := 0, singleRoomsCount := 0, doubleRoomsCount := 0 }

/-! ## Environment: standard input and the random number generator -/

/-- One item of standard input, seen through the two read operations of the program:
`asInt` is what `cin >> value` extracts from it (`none` when the extraction fails),
`asLine` is what `cin.ignore(...); getline(cin, s)` reads from it. -/
structure InputItem where
  asInt : Option Int
  asLine : String

/-- The environment: the remaining input and the stream of future `rand()` results. -/
structure Env where
  input : List InputItem
  rand : Nat → Nat

/-- Embedding of `rand()`: the next value of the stream. -/
def rand (env : Env) : Nat × Env :=
  (env.rand 0, { env with rand := fun k => env.rand (k + 1) })

/-- Embedding of `getValidatedInput(prompt, min, max)`: reads until an integer in `[min, max]` is
entered; non-numeric items and out-of-range numbers are discarded. -/
def getValidatedInput (min max : Int) : List InputItem → Option (Int × List InputItem)
  | [] => none
  | item :: rest =>
    match item.asInt with
    | some value =>
      if value ≥ min ∧ value ≤ max then some (value, rest)
      else getValidatedInput min max rest
    | none => getValidatedInput min max rest

/-- Embedding of `cin.ignore(...); getline(cin, s)`: the next line of input. -/
def getline : List InputItem → Option (String × List InputItem)
  | [] => none
  | item :: rest => some (item.asLine, rest)

/-- Embedding of `cin >> confirm` into `int confirm`: a failed extraction stores 0. -/
def readInt : List InputItem → Option (Int × List InputItem)
  | [] => none
  | item :: rest => some (item.asInt.getD 0, rest)

/-! ## Access to the room table -/

/-- Embedding of `rooms[idx]` for an `int` index. -/
def roomAt (rooms : List Room) (idx : Int) : Option Room :=
  if idx < 0 then none else rooms[idx.toNat]?

/-- Embedding of `rooms[idx] = f(rooms[idx])` for an `int` index. -/
def updateRoom (rooms : List Room) (idx : Int) (f : Room → Room) : Option (List Room) :=
  match roomAt rooms idx with
  | none => none
  | some r => some (rooms.set idx.toNat (f r))

/-- Embedding of `for (int i = lo; i < lo + k; i++) { ... rooms[i] ... }` reading the table:
the body sees the loop state, the index and `rooms[i]`; it continues
(`ForInStep.yield`), breaks (`ForInStep.done`), or is undefined (`none`) when it
indexes the table out of bounds itself. -/
def forRooms {σ : Type} (rooms : List Room) (body : σ → Nat → Room → Option (ForInStep σ)) :
    Nat → Nat → σ → Option σ
  | 0, _, s => some s
  | k + 1, i, s =>
    match rooms[i]? with
    | none => none
    | some r =>
      match body s i r with
      | none => none
      | some (ForInStep.yield s') => forRooms rooms body k (i + 1) s'
      | some (ForInStep.done s') => some s'

/-- Embedding of `for (int i = lo; i < lo + k; i++) rooms[i] = body(i, rooms[i])`. -/
def updateLoop (body : Nat → Room → Room) : Nat → Nat → List Room → Option (List Room)
  | 0, _, rooms => some rooms
  | k + 1, i, rooms =>
    match rooms[i]? with
    | none => none
    | some r => updateLoop body k (i + 1) (rooms.set i (body i r))

/-- Embedding of `rooms.resize(n)`. -/
def resize (rooms : List Room) (n : Nat) : List Room :=
  (rooms ++ List.replicate (n - rooms.length) Room.zero).take n

/-! ## `initializeRooms` -/

/-- Embedding of `initializeRooms()`. -/
def initializeRooms (g : Globals) (env : Env) : Option (Globals × Env) :=
  let (r0, env) := rand env
  let totalRooms : Int := 40 + 2 * ((r0 : Int) % 131)
  let totalRooms : Int := if totalRooms % 2 ≠ 0 then totalRooms + 1 else totalRooms
  let singleRoomsCount : Int := totalRooms / 2
  let doubleRoomsCount : Int := totalRooms / 2
  let (r1, env) := rand env
  let singleBasePrice : Int := 80 + (r1 : Int) % 21
  let (r2, env) := rand env
  let doubleBasePrice : Int := 120 + (r2 : Int) % 31
  let rooms := resize g.rooms totalRooms.toNat
  let body : Nat → Room → Room := fun i r =>
    let r := { r with number := (i : Int) + 1, isBooked := false, reservationId := 0,
                      nights := 0, includesBreakfast := false, discountRate := 0 }
    if (i : Int) < singleRoomsCount then
      { r with isSingle := true, basePrice := (singleBasePrice : ℚ) }
    else
      { r with isSingle := false, basePrice := (doubleBasePrice : ℚ) }
  match updateLoop body totalRooms.toNat 0 rooms with
  | none => none
  | some rooms =>
    some ({ rooms := rooms, totalRooms := totalRooms,
            singleRoomsCount := singleRoomsCount,
            doubleRoomsCount := doubleRoomsCount }, env)

/-! ## `isRoomAvailable` -/

/-- The error message printed by `isRoomAvailable`. -/
inductive AvailError where
  | invalidRoomNumber
  | notSingle
  | alreadyBooked
  deriving DecidableEq

/-- Embedding of `isRoomAvailable(roomNumber, requireSingle)`: the returned flag together with
the error message printed, if any. -/
def isRoomAvailable (g : Globals) (roomNumber : Int) (requireSingle : Bool) :
    Option (Bool × Option AvailError) :=
  if roomNumber < 1 ∨ roomNumber > g.totalRooms then
    some (false, some AvailError.invalidRoomNumber)
  else
    match roomAt g.rooms (roomNumber - 1) with
    | none => none
    | some r =>
      if requireSingle && !r.isSingle then
        some (false, some AvailError.notSingle)
      else if r.isBooked then
        some (false, some AvailError.alreadyBooked)
      else
        some (true, none)

/-! ## Pricing and random generators -/

/-- Embedding of `calculateFinalPrice(roomNumber, nights, discount)`. -/
def calculateFinalPrice (g : Globals) (roomNumber : Int) (nights : Int) (discount : ℚ) :
    Option ℚ :=
  match roomAt g.rooms (roomNumber - 1) with
  | none => none
  | some r =>
    let basePrice : ℚ := r.basePrice
    let total : ℚ := basePrice * (nights : ℚ)
    some (total * (1 - discount))

/-- Embedding of `generateReservationId()`. -/
def generateReservationId (env : Env) : Int × Env :=
  let (r, env) := rand env
  (10000 + (r : Int) % 90000, env)

/-- Embedding of `getRandomDiscount()`. -/
def getRandomDiscount (env : Env) : ℚ × Env :=
  let (r, env) := rand env
  let discountType : Int := (r : Int) % 3
  if discountType = 0 then (0, env)
  else if discountType = 1 then (1 / 10, env)
  else if discountType = 2 then (1 / 5, env)
  else (0, env)

/-- The breakfast step that follows every call of `calculateFinalPrice`:
`if (breakfast) finalPrice = finalPrice * 0.95;`. -/
def applyBreakfast (finalPrice : ℚ) (breakfast : Bool) : ℚ :=
  if breakfast then finalPrice * 0.95 else finalPrice

/-! ## `displayAvailableRooms` -/

/-- What `displayAvailableRooms` prints: the two lists of room numbers and the counters. -/
structure AvailableReport where
  singles : List Int
  doubles : List Int
  availableSingles : Int
  availableDoubles : Int
  deriving DecidableEq

/-- Embedding of `displayAvailableRooms()`. -/
def displayAvailableRooms (g : Globals) : Option AvailableReport :=
  match forRooms g.rooms
      (fun (s : List Int × Int) _ r =>
        if r.isSingle && !r.isBooked then some (ForInStep.yield (s.1 ++ [r.number], s.2 + 1))
        else some (ForInStep.yield s))
      g.totalRooms.toNat 0 ([], 0) with
  | none => none
  | some (singles, availableSingles) =>
    match forRooms g.rooms
        (fun (s : List Int × Int) _ r =>
          if !r.isSingle && !r.isBooked then some (ForInStep.yield (s.1 ++ [r.number], s.2 + 1))
          else some (ForInStep.yield s))
        g.totalRooms.toNat 0 ([], 0) with
    | none => none
    | some (doubles, availableDoubles) =>
      some { singles := singles, doubles := doubles,
             availableSingles := availableSingles, availableDoubles := availableDoubles }

/-! ## `makeReservation` -/

/-- The reservation summary printed before the confirmation question. -/
structure Summary where
  reservationId : Int
  guestName : String
  room : Int
  isSingle : Bool
  nights : Int
  basePrice : ℚ
  discount : ℚ
  hasBreakfast : Bool
  totalPrice : ℚ
  deriving DecidableEq

/-- What `makeReservation` reports when it returns. -/
inductive ReservationReport where
  | noAvailableRooms
  | notAvailable (e : Option AvailError)
  | cancelled (s : Summary)
  | confirmed (s : Summary)
  deriving DecidableEq

/-- The result of one call of `makeReservation`: return value, globals, environment
and report. -/
structure ReservationResult where
  ret : Int
  globals : Globals
  env : Env
  report : ReservationReport

/-- The candidate list of the system-assigned mode (the loop filling `availableRooms`). -/
def collectAvailable (g : Globals) (requireSingle : Bool) : Option (List Int) :=
  forRooms g.rooms
    (fun (availableRooms : List Int) i r =>
      if !r.isBooked then
        if (requireSingle && r.isSingle) || (!requireSingle && !r.isSingle) then
          some (ForInStep.yield (availableRooms ++ [(i : Int) + 1]))
        else some (ForInStep.yield availableRooms)
      else some (ForInStep.yield availableRooms))
    g.totalRooms.toNat 0 []

/-- The outcome of the room selection step of `makeReservation`. -/
inductive Selection where
  | noRooms
  | room (selectedRoom : Int)
  deriving DecidableEq

/-- The room selection step of `makeReservation` (`if (bookingMethod == 1) ... else ...`). -/
def selectRoom (g : Globals) (requireSingle : Bool) (bookingMethod : Int) (env : Env) :
    Option (Selection × Env) :=
  if bookingMethod = 1 then
    match collectAvailable g requireSingle with
    | none => none
    | some availableRooms =>
      if availableRooms.isEmpty then some (Selection.noRooms, env)
      else
        let (r, env) := rand env
        match availableRooms[r % availableRooms.length]? with
        | none => none
        | some selectedRoom => some (Selection.room selectedRoom, env)
  else
    match getValidatedInput 1 g.totalRooms env.input with
    | none => none
    | some (selectedRoom, input) => some (Selection.room selectedRoom, { env with input := input })

/-- The part of `makeReservation` after the availability check has succeeded:
guest details, discount, price, breakfast, reservation ID, summary, confirmation
and commit. -/
def completeReservation (g : Globals) (selectedRoom : Int) (env : Env) :
    Option ReservationResult :=
  match getline env.input with
  | none => none
  | some (guestName, input) =>
  match getValidatedInput 1 30 input with
  | none => none
  | some (nights, input) =>
  let (discount, env) := getRandomDiscount { env with input := input }
  match calculateFinalPrice g selectedRoom nights discount with
  | none => none
  | some finalPrice =>
  match getValidatedInput 1 2 env.input with
  | none => none
  | some (breakfastChoice, input) =>
  let hasBreakfast : Bool := decide (breakfastChoice = 1)
  let finalPrice : ℚ := applyBreakfast finalPrice hasBreakfast
  let (reservationId, env) := generateReservationId { env with input := input }
  match roomAt g.rooms (selectedRoom - 1) with
  | none => none
  | some r =>
  let summary : Summary :=
    { reservationId := reservationId, guestName := guestName, room := selectedRoom,
      isSingle := r.isSingle, nights := nights, basePrice := r.basePrice,
      discount := discount, hasBreakfast := hasBreakfast, totalPrice := finalPrice }
  match readInt env.input with
  | none => none
  | some (confirm, input) =>
  if confirm = 1 then
    match updateRoom g.rooms (selectedRoom - 1)
        (fun r => { r with isBooked := true, reservationId := reservationId,
                           guestName := guestName, nights := nights,
                           discountRate := discount, includesBreakfast := hasBreakfast }) with
    | none => none
    | some rooms =>
      some { ret := reservationId, globals := { g with rooms := rooms },
             env := { env with input := input }, report := ReservationReport.confirmed summary }
  else
    some { ret := -1, globals := g, env := { env with input := input },
           report := ReservationReport.cancelled summary }

/-- Embedding of `makeReservation()`. -/
def makeReservation (g : Globals) (env : Env) : Option ReservationResult :=
  match getValidatedInput 1 2 env.input with
  | none => none
  | some (roomTypeChoice, input) =>
  let requireSingle : Bool := decide (roomTypeChoice = 1)
  match displayAvailableRooms g with
  | none => none
  | some _ =>
  match getValidatedInput 1 2 input with
  | none => none
  | some (bookingMethod, input) =>
  match selectRoom g requireSingle bookingMethod { env with input := input } with
  | none => none
  | some (Selection.noRooms, env) =>
    some { ret := -1, globals := g, env := env, report := ReservationReport.noAvailableRooms }
  | some (Selection.room selectedRoom, env) =>
  match isRoomAvailable g selectedRoom requireSingle with
  | none => none
  | some (false, e) =>
    some { ret := -1, globals := g, env := env, report := ReservationReport.notAvailable e }
  | some (true, _) => completeReservation g selectedRoom env

/-! ## `viewReservations` and `searchReservation` -/

/-- One reservation as printed by `viewReservations` and `searchReservation`. -/
structure ReservationLine where
  room : Int
  reservationId : Int
  guestName : String
  isSingle : Bool
  nights : Int
  includesBreakfast : Bool
  totalPaid : ℚ
  discountRate : ℚ
  deriving DecidableEq

/-- The lines printed by a query together with the final value of its flag
(`hasReservations`, `found`); "No reservations found." is printed when the flag is false. -/
structure QueryReport where
  lines : List ReservationLine
  found : Bool
  deriving DecidableEq

/-- The display block shared by the three query loops: recompute the price of
`rooms[i]` with `calculateFinalPrice(i+1, ...)`, apply the breakfast step and print. -/
def reservationLine (g : Globals) (i : Nat) (r : Room) : Option ReservationLine :=
  match calculateFinalPrice g ((i : Int) + 1) r.nights r.discountRate with
  | none => none
  | some finalPrice =>
    let finalPrice : ℚ := applyBreakfast finalPrice r.includesBreakfast
    some { room := r.number, reservationId := r.reservationId, guestName := r.guestName,
           isSingle := r.isSingle, nights := r.nights,
           includesBreakfast := r.includesBreakfast, totalPaid := finalPrice,
           discountRate := r.discountRate }

/-- Embedding of `viewReservations()`. -/
def viewReservations (g : Globals) : Option QueryReport :=
  forRooms g.rooms
    (fun (s : QueryReport) i r =>
      if r.isBooked then
        match reservationLine g i r with
        | none => none
        | some line => some (ForInStep.yield { lines := s.lines ++ [line], found := true })
      else some (ForInStep.yield s))
    g.totalRooms.toNat 0 { lines := [], found := false }

/-- Embedding of `::tolower` in the "C" locale. -/
def tolower (c : Char) : Char :=
  if 'A' ≤ c ∧ c ≤ 'Z' then Char.ofNat (c.toNat + 32) else c

/-- Embedding of `transform(s.begin(), s.end(), s.begin(), ::tolower)`. -/
def lowercase (s : String) : List Char :=
  s.data.map tolower

/-- Whether `needle` starts `hay`. -/
def startsWith : List Char → List Char → Bool
  | _, [] => true
  | [], _ :: _ => false
  | h :: hay, n :: needle => h == n && startsWith hay needle

/-- Embedding of `hay.find(needle)`: the first position at which `needle` occurs in `hay`,
`none` for `string::npos`. -/
def find : List Char → List Char → Option Nat
  | [], needle => if needle.isEmpty then some 0 else none
  | h :: hay, needle =>
    if startsWith (h :: hay) needle then some 0
    else (find hay needle).map (fun p => p + 1)

/-- The search-by-ID loop of `searchReservation`. -/
def searchById (g : Globals) (searchId : Int) : Option QueryReport :=
  forRooms g.rooms
    (fun (s : QueryReport) i r =>
      if r.isBooked && decide (r.reservationId = searchId) then
        match reservationLine g i r with
        | none => none
        | some line => some (ForInStep.done { lines := s.lines ++ [line], found := true })
      else some (ForInStep.yield s))
    g.totalRooms.toNat 0 { lines := [], found := false }

/-- The search-by-name loop of `searchReservation`; `searchName` is already lower-cased. -/
def searchByName (g : Globals) (searchName : List Char) : Option QueryReport :=
  forRooms g.rooms
    (fun (s : QueryReport) i r =>
      if r.isBooked then
        let roomGuestName := lowercase r.guestName
        if (find roomGuestName searchName).isSome then
          match reservationLine g i r with
          | none => none
          | some line => some (ForInStep.yield { lines := s.lines ++ [line], found := true })
        else some (ForInStep.yield s)
      else some (ForInStep.yield s))
    g.totalRooms.toNat 0 { lines := [], found := false }

/-- Embedding of `searchReservation()`. -/
def searchReservation (g : Globals) (env : Env) : Option (QueryReport × Env) :=
  match getValidatedInput 1 2 env.input with
  | none => none
  | some (searchType, input) =>
    if searchType = 1 then
      match getValidatedInput 10000 99999 input with
      | none => none
      | some (searchId, input) =>
        match searchById g searchId with
        | none => none
        | some report => some (report, { env with input := input })
    else
      match getline input with
      | none => none
      | some (searchName, input) =>
        match searchByName g (lowercase searchName) with
        | none => none
        | some report => some (report, { env with input := input })

/-! ## `bookRoom` -/

/-- Embedding of `bookRoom(roomNumber, guestName, nights)`: the returned flag, the globals and the
environment after the call. -/
def bookRoom (g : Globals) (roomNumber : Int) (guestName : String) (nights : Int) (env : Env) :
    Option (Bool × Globals × Env) :=
  if roomNumber < 1 ∨ roomNumber > g.totalRooms then some (false, g, env)
  else
    match roomAt g.rooms (roomNumber - 1) with
    | none => none
    | some r =>
      if r.isBooked then some (false, g, env)
      else
        let (reservationId, env) := generateReservationId env
        let (discountRate, env) := getRandomDiscount env
        match updateRoom g.rooms (roomNumber - 1)
            (fun r => { r with isBooked := true, guestName := guestName, nights := nights,
                               reservationId := reservationId, discountRate := discountRate,
                               includesBreakfast := false }) with
        | none => none
        | some rooms => some (true, { g with rooms := rooms }, env)

/-! ## The main loop -/

/-- One iteration of the `while (continueProgram)` loop of `main`: the new value of
`continueProgram`, the globals and the environment. -/
def mainLoopBody (g : Globals) (env : Env) : Option (Bool × Globals × Env) :=
  match getValidatedInput 1 5 env.input with
  | none => none
  | some (choice, input) =>
    let env : Env := { env with input := input }
    if choice = 1 then
      match makeReservation g env with
      | none => none
      | some res => some (true, res.globals, res.env)
    else if choice = 2 then
      match viewReservations g with
      | none => none
      | some _ => some (true, g, env)
    else if choice = 3 then
      match searchReservation g env with
      | none => none
      | some (_, env) => some (true, g, env)
    else if choice = 4 then
      match displayAvailableRooms g with
      | none => none
      | some _ => some (true, g, env)
    else if choice = 5 then some (false, g, env)
    else some (true, g, env)

/-- The `while (continueProgram)` loop of `main`, run for at most `k` iterations. -/
def mainLoop : Nat → Globals → Env → Option (Globals × Env)
  | 0, g, env => some (g, env)
  | k + 1, g, env =>
    match mainLoopBody g env with
    | none => none
    | some (true, g2, env2) => mainLoop k g2 env2
    | some (false, g2, env2) => some (g2, env2)

/-- The program `main`: `initializeRooms()` followed by at most `k` iterations of the
main loop. -/
def main (k : Nat) (env : Env) : Option (Globals × Env) :=
  match initializeRooms Globals.start env with
  | none => none
  | some (g, env) => mainLoop k g env

/-! ## Reachable states and invariants -/

/-- One menu operation: `g2` is reached from `g1` by one iteration of the main loop,
for some input and some random stream. -/
def MenuStep (g1 g2 : Globals) : Prop :=
  ∃ env env2, mainLoopBody g1 env = some (true, g2, env2)

/-- States reached from `g1` by any number of iterations of the main loop. -/
def ReachableFrom (g1 g2 : Globals) : Prop :=
  Relation.ReflTransGen MenuStep g1 g2

/-- States the program can be in: `initializeRooms` at program start followed by any
number of iterations of the main loop. -/
def Reachable (g : Globals) : Prop :=
  ∃ env g0 env0, initializeRooms Globals.start env = some (g0, env0) ∧ ReachableFrom g0 g

/-- The table invariant: the vector holds exactly `totalRooms` rooms. -/
def WellFormed (g : Globals) : Prop :=
  (g.rooms.length : Int) = g.totalRooms

instance (g : Globals) : Decidable (WellFormed g) := by
  unfold WellFormed
  infer_instance

/-- The numbering invariant: the room at index `i` has number `i + 1`. -/
def Numbered (g : Globals) : Prop :=
  g.rooms.map (fun r => r.number) =
    List.map (fun (i : Nat) => (i : Int) + 1) (List.range g.rooms.length)

instance (g : Globals) : Decidable (Numbered g) := by
  unfold Numbered
  infer_instance

/-- The globals `g2` continue `g1`: same counters, same number of rooms, every room keeps
its number, category and base price, and a room that is booked in `g1` is the same
room in `g2`. -/
def Extends (g1 g2 : Globals) : Prop :=
  g2.totalRooms = g1.totalRooms ∧ g2.singleRoomsCount = g1.singleRoomsCount ∧
  g2.doubleRoomsCount = g1.doubleRoomsCount ∧ g2.rooms.length = g1.rooms.length ∧
  ∀ (i : Nat) (r : Room), g1.rooms[i]? = some r →
    ∃ r2 : Room, g2.rooms[i]? = some r2 ∧ r2.number = r.number ∧ r2.isSingle = r.isSingle ∧
      r2.basePrice = r.basePrice ∧ (r.isBooked = true → r2 = r)

/-! ## Auxiliary definitions used in the statements -/

/-- The room written by the commit of `makeReservation` for the summary `s`. -/
def commitRoom (r : Room) (s : Summary) : Room :=
  { r with isBooked := true, reservationId := s.reservationId, guestName := s.guestName,
           nights := s.nights, discountRate := s.discount,
           includesBreakfast := s.hasBreakfast }

/-- What the summary of an attempt on room `n` contains when the table entry is `r`. -/
def SummaryFor (g : Globals) (n : Int) (r : Room) (s : Summary) : Prop :=
  roomAt g.rooms (n - 1) = some r ∧ s.room = n ∧ s.isSingle = r.isSingle ∧
  s.basePrice = r.basePrice ∧ (1 ≤ s.nights ∧ s.nights ≤ 30) ∧
  (s.discount = 0 ∨ s.discount = 1 / 10 ∨ s.discount = 1 / 5) ∧
  (10000 ≤ s.reservationId ∧ s.reservationId ≤ 99999) ∧
  s.totalPrice = applyBreakfast (r.basePrice * (s.nights : ℚ) * (1 - s.discount)) s.hasBreakfast

/-- The line printed for a booked room `r`: its stored fields and the recomputed total
`basePrice * nights * (1 - discountRate)` after the breakfast step. -/
def lineOf (r : Room) : ReservationLine :=
  { room := r.number, reservationId := r.reservationId, guestName := r.guestName,
    isSingle := r.isSingle, nights := r.nights, includesBreakfast := r.includesBreakfast,
    totalPaid :=
      applyBreakfast (r.basePrice * (r.nights : ℚ) * (1 - r.discountRate)) r.includesBreakfast,
    discountRate := r.discountRate }

/-- The test of the search-by-ID loop. -/
def matchesId (searchId : Int) (r : Room) : Bool :=
  r.isBooked && decide (r.reservationId = searchId)

/-- The test of the search-by-name loop (`searchName` already lower-cased). -/
def matchesName (searchName : List Char) (r : Room) : Bool :=
  r.isBooked && (find (lowercase r.guestName) searchName).isSome

/-- The totals redisplayed in state `g` for the room of the summary `s` are the total
quoted in `s`: `viewReservations` lists that room, every line it prints for the room
shows the quoted total, and so does every line printed for the room by
`searchReservation` (search by ID or by name), whatever is typed. -/
def RedisplaysQuote (g : Globals) (s : Summary) : Prop :=
  (∃ rep, viewReservations g = some rep ∧
    (∃ line ∈ rep.lines, line.room = s.room) ∧
    ∀ line ∈ rep.lines, line.room = s.room → line.totalPaid = s.totalPrice) ∧
  (∀ searchId rep, searchById g searchId = some rep →
    ∀ line ∈ rep.lines, line.room = s.room → line.totalPaid = s.totalPrice) ∧
  (∀ searchName rep, searchByName g searchName = some rep →
    ∀ line ∈ rep.lines, line.room = s.room → line.totalPaid = s.totalPrice) ∧
  (∀ env rep env2, searchReservation g env = some (rep, env2) →
    ∀ line ∈ rep.lines, line.room = s.room → line.totalPaid = s.totalPrice)

/-- The string `hay` contains `needle` as a contiguous substring. -/
def Contains (hay needle : List Char) : Prop :=
  ∃ before after, hay = before ++ needle ++ after

/-- Room number `n` is a booked room whose guest name, lower-cased, contains the
lower-cased search string. -/
def BookedUnderName (g : Globals) (searchName : String) (n : Int) : Prop :=
  ∃ r, roomAt g.rooms (n - 1) = some r ∧ r.isBooked = true ∧
    Contains (lowercase r.guestName) (lowercase searchName)

/-- Room number `n` is a booked room holding the reservation ID `searchId`. -/
def BookedUnderId (g : Globals) (searchId : Int) (n : Int) : Prop :=
  ∃ r, roomAt g.rooms (n - 1) = some r ∧ r.isBooked = true ∧ r.reservationId = searchId

/-! ## Sample data -/

/-- A table of two rooms: room 1 single, room 2 double, both vacant. -/
def twoRooms : Globals :=
  { rooms := [{ Room.zero with number := 1, isSingle := true, basePrice := 80 },
              { Room.zero with number := 2, isSingle := false, basePrice := 120 }],
    totalRooms := 2, singleRoomsCount := 1, doubleRoomsCount := 1 }

/-- A table of one room with base price 100. -/
def oneRoomAtHundred : Globals :=
  { rooms := [{ Room.zero with number := 1, isSingle := true, basePrice := 100 }],
    totalRooms := 1, singleRoomsCount := 1, doubleRoomsCount := 0 }

/-- An input item holding the number `v`. -/
def num (v : Int) : InputItem := { asInt := some v, asLine := toString v }

/-- An input item holding a line of text that is not a number. -/
def text (s : String) : InputItem := { asInt := none, asLine := s }

/-- Answers to `makeReservation`: double room, manual selection of room 1, guest
"Ana Smith", 1 night, no breakfast, confirmed. -/
def doubleManualRoomOne : List InputItem :=
  [num 2, num 2, num 1, text "Ana Smith", num 1, num 2, num 1]

/-- Answers to `makeReservation`: single room, manual selection of room 1, guest
"Bob", 2 nights, breakfast, declined at the confirmation. -/
def singleManualDeclined : List InputItem :=
  [num 1, num 2, num 1, text "Bob", num 2, num 1, num 2]

/-- Answers to `makeReservation`: single room, system-assigned, guest "Juliana",
3 nights, breakfast, confirmed. -/
def singleSystemConfirmed : List InputItem :=
  [num 1, num 1, text "Juliana", num 3, num 1, num 1]

/-- A run of the program with two reservations: menu choice 1, single room, manual
selection of room 1, guest "Ana Smith", 2 nights, no breakfast, confirmed; then menu
choice 1, double room, manual selection of room 28, guest "Bob", 1 night, no breakfast,
confirmed.  The `rand()` results are 7, 3, 5 (initialization: 54 rooms), then 1 and
4242 (discount and ID of the first reservation), then 2 and 4242 (discount and ID of
the second one). -/
def twoReservationsRun : Env :=
  { input := [num 1, num 1, num 2, num 1, text "Ana Smith", num 2, num 2, num 1,
              num 1, num 2, num 2, num 28, text "Bob", num 1, num 2, num 1],
    rand := fun k => [7, 3, 5, 1, 4242, 2, 4242].getD k 0 }

/-- A table of four rooms: rooms 1, 2 and 3 booked by "Ana Smith", "Juliana" and "Bob",
room 4 vacant. -/
def threeGuests : Globals :=
  { rooms := [{ Room.zero with number := 1, isSingle := true, basePrice := 80,
                               isBooked := true, reservationId := 11111,
                               guestName := "Ana Smith", nights := 2 },
              { Room.zero with number := 2, isSingle := true, basePrice := 80,
                               isBooked := true, reservationId := 22222,
                               guestName := "Juliana", nights := 1 },
              { Room.zero with number := 3, isSingle := false, basePrice := 120,
                               isBooked := true, reservationId := 33333,
                               guestName := "Bob", nights := 3 },
              { Room.zero with number := 4, isSingle := false, basePrice := 120 }],
    totalRooms := 4, singleRoomsCount := 2, doubleRoomsCount := 2 }

/-! # Verification -/

/-! ## Basic facts about input and random generators -/

theorem exists_of_map_eq_some {α β : Type} {o : Option α} {f : α → β} {b : β}
    (h : o.map f = some b) : ∃ a, o = some a ∧ f a = b := by
  cases o with
  | none => simp at h
  | some a => exact ⟨a, rfl, by simpa using h⟩

theorem getValidatedInput_range {min max : Int} {input : List InputItem} {v : Int}
    {rest : List InputItem} (h : getValidatedInput min max input = some (v, rest)) :
    min ≤ v ∧ v ≤ max := by
  induction input with
  | nil => simp [getValidatedInput] at h
  | cons item tl ih =>
    unfold getValidatedInput at h
    cases hi : item.asInt with
    | none => rw [hi] at h; exact ih h
    | some value =>
      rw [hi] at h
      by_cases hr : value ≥ min ∧ value ≤ max
      · simp only [hr, and_self, if_true] at h
        cases h
        exact ⟨hr.1, hr.2⟩
      · simp only [hr, if_false] at h
        exact ih h

theorem generateReservationId_range (env : Env) :
    10000 ≤ (generateReservationId env).1 ∧ (generateReservationId env).1 ≤ 99999 := by
  simp only [generateReservationId, rand]
  omega

theorem getRandomDiscount_mem (env : Env) :
    (getRandomDiscount env).1 = 0 ∨ (getRandomDiscount env).1 = 1 / 10 ∨
      (getRandomDiscount env).1 = 1 / 5 := by
  simp only [getRandomDiscount, rand]
  split_ifs <;> simp

theorem roomAt_eq_some {rooms : List Room} {idx : Int} {r : Room}
    (h : roomAt rooms idx = some r) :
    0 ≤ idx ∧ idx.toNat < rooms.length ∧ rooms[idx.toNat]? = some r := by
  unfold roomAt at h
  split_ifs at h with h0
  refine ⟨by omega, ?_, h⟩
  exact (List.getElem?_eq_some.mp h).1

theorem roomAt_of_range {g : Globals} (hwf : WellFormed g) {n : Int}
    (h1 : 1 ≤ n) (h2 : n ≤ g.totalRooms) : ∃ r, roomAt g.rooms (n - 1) = some r := by
  unfold WellFormed at hwf
  have hlt : (n - 1).toNat < g.rooms.length := by omega
  refine ⟨g.rooms[(n - 1).toNat], ?_⟩
  unfold roomAt
  rw [if_neg (by omega)]
  exact List.getElem?_eq_getElem hlt

/-! ## The structure of a reservation attempt -/

theorem completeReservation_spec {g : Globals} {n : Int} {env : Env} {res : ReservationResult}
    (h : completeReservation g n env = some res) :
    ∃ r s, SummaryFor g n r s ∧
      ((res.ret = -1 ∧ res.globals = g ∧ res.report = ReservationReport.cancelled s) ∨
       (res.ret = s.reservationId ∧
        res.globals = { g with rooms := g.rooms.set (n - 1).toNat (commitRoom r s) } ∧
        res.report = ReservationReport.confirmed s)) := by
  unfold completeReservation at h
  cases hgl : getline env.input with
  | none => simp [hgl] at h
  | some p1 =>
    obtain ⟨guestName, input1⟩ := p1
    simp only [hgl] at h
    cases hn : getValidatedInput 1 30 input1 with
    | none => simp [hn] at h
    | some p2 =>
      obtain ⟨nights, input2⟩ := p2
      simp only [hn] at h
      have hnr := getValidatedInput_range hn
      generalize hd : getRandomDiscount { env with input := input2 } = dd at h
      obtain ⟨discount, env3⟩ := dd
      have hdm := getRandomDiscount_mem { env with input := input2 }
      rw [hd] at hdm
      simp only at h hdm
      cases hr : roomAt g.rooms (n - 1) with
      | none => simp [calculateFinalPrice, hr] at h
      | some r =>
        simp only [calculateFinalPrice, hr] at h
        cases hb : getValidatedInput 1 2 env3.input with
        | none => simp [hb] at h
        | some p3 =>
          obtain ⟨breakfastChoice, input4⟩ := p3
          simp only [hb] at h
          generalize hid : generateReservationId { env3 with input := input4 } = ii at h
          obtain ⟨reservationId, env5⟩ := ii
          have hidr := generateReservationId_range { env3 with input := input4 }
          rw [hid] at hidr
          simp only at h hidr
          cases hc : readInt env5.input with
          | none => simp [hc] at h
          | some p6 =>
            obtain ⟨confirm, input6⟩ := p6
            simp only [hc] at h
            refine ⟨r, Summary.mk reservationId guestName n r.isSingle nights r.basePrice
              discount (decide (breakfastChoice = 1))
              (applyBreakfast (r.basePrice * (nights : ℚ) * (1 - discount))
                (decide (breakfastChoice = 1))), ?_, ?_⟩
            · exact ⟨hr, rfl, rfl, rfl, hnr, hdm, hidr, rfl⟩
            · by_cases hc1 : confirm = 1
              · right
                simp only [hc1, if_true, updateRoom, hr] at h
                cases h
                exact ⟨rfl, rfl, rfl⟩
              · left
                simp only [hc1, if_false] at h
                cases h
                exact ⟨rfl, rfl, rfl⟩

theorem isRoomAvailable_true {g : Globals} {n : Int} {requireSingle : Bool}
    {e : Option AvailError} (h : isRoomAvailable g n requireSingle = some (true, e)) :
    e = none ∧ 1 ≤ n ∧ n ≤ g.totalRooms ∧
      ∃ r, roomAt g.rooms (n - 1) = some r ∧ r.isBooked = false ∧
        (requireSingle = true → r.isSingle = true) := by
  unfold isRoomAvailable at h
  by_cases hr : n < 1 ∨ n > g.totalRooms
  · simp [hr] at h
  · rw [if_neg hr] at h
    cases hra : roomAt g.rooms (n - 1) with
    | none => rw [hra] at h; simp at h
    | some r =>
      rw [hra] at h
      simp only at h
      by_cases h1 : (requireSingle && !r.isSingle) = true
      · simp [h1] at h
      · rw [if_neg h1] at h
        by_cases h2 : r.isBooked = true
        · simp [h2] at h
        · rw [if_neg h2] at h
          simp only [Option.some.injEq, Prod.mk.injEq, true_and] at h
          refine ⟨h.symm, by omega, by omega, r, rfl, by simpa using h2, ?_⟩
          intro hs
          simpa [hs] using h1

/-- The stages of a completed call of `makeReservation`. -/
theorem makeReservation_inv {g : Globals} {env : Env} {res : ReservationResult}
    (h : makeReservation g env = some res) :
    ∃ roomTypeChoice input1 bookingMethod input2 sel env3,
      getValidatedInput 1 2 env.input = some (roomTypeChoice, input1) ∧
      getValidatedInput 1 2 input1 = some (bookingMethod, input2) ∧
      selectRoom g (decide (roomTypeChoice = 1)) bookingMethod { env with input := input2 }
        = some (sel, env3) ∧
      ((sel = Selection.noRooms ∧ res.ret = -1 ∧ res.globals = g ∧
          res.report = ReservationReport.noAvailableRooms) ∨
       (∃ n e, sel = Selection.room n ∧
          isRoomAvailable g n (decide (roomTypeChoice = 1)) = some (false, e) ∧
          res.ret = -1 ∧ res.globals = g ∧ res.report = ReservationReport.notAvailable e) ∨
       (∃ n, sel = Selection.room n ∧
          isRoomAvailable g n (decide (roomTypeChoice = 1)) = some (true, none) ∧
          completeReservation g n env3 = some res)) := by
  unfold makeReservation at h
  cases h1 : getValidatedInput 1 2 env.input with
  | none => simp [h1] at h
  | some p1 =>
    obtain ⟨roomTypeChoice, input1⟩ := p1
    simp only [h1] at h
    cases hd : displayAvailableRooms g with
    | none => simp [hd] at h
    | some rep =>
      simp only [hd] at h
      cases h2 : getValidatedInput 1 2 input1 with
      | none => simp [h2] at h
      | some p2 =>
        obtain ⟨bookingMethod, input2⟩ := p2
        simp only [h2] at h
        cases hs : selectRoom g (decide (roomTypeChoice = 1)) bookingMethod
            { env with input := input2 } with
        | none => simp [hs] at h
        | some p3 =>
          obtain ⟨sel, env3⟩ := p3
          refine ⟨roomTypeChoice, input1, bookingMethod, input2, sel, env3, rfl, h2, hs, ?_⟩
          cases sel with
          | noRooms =>
            simp only [hs, Option.some.injEq] at h
            subst h
            exact Or.inl ⟨rfl, rfl, rfl, rfl⟩
          | room n =>
            simp only [hs] at h
            cases ha : isRoomAvailable g n (decide (roomTypeChoice = 1)) with
            | none => simp [ha] at h
            | some p4 =>
              obtain ⟨b, e⟩ := p4
              cases b with
              | false =>
                simp only [ha, Option.some.injEq] at h
                subst h
                exact Or.inr (Or.inl ⟨n, e, rfl, ha, rfl, rfl, rfl⟩)
              | true =>
                simp only [ha] at h
                have he := (isRoomAvailable_true ha).1
                subst he
                exact Or.inr (Or.inr ⟨n, rfl, ha, h⟩)

/-- A call of `makeReservation` either leaves the globals as they are and returns -1,
or books one room that passed the availability check and returns its reservation ID. -/
theorem makeReservation_spec {g : Globals} {env : Env} {res : ReservationResult}
    (h : makeReservation g env = some res) :
    (res.ret = -1 ∧ res.globals = g ∧
      (res.report = ReservationReport.noAvailableRooms ∨
       (∃ e, res.report = ReservationReport.notAvailable e) ∨
       (∃ n r s, res.report = ReservationReport.cancelled s ∧ SummaryFor g n r s))) ∨
    (∃ n requireSingle r s,
      isRoomAvailable g n requireSingle = some (true, none) ∧ SummaryFor g n r s ∧
      res.ret = s.reservationId ∧
      res.globals = { g with rooms := g.rooms.set (n - 1).toNat (commitRoom r s) } ∧
      res.report = ReservationReport.confirmed s) := by
  obtain ⟨rt, i1, bm, i2, sel, env3, -, -, -, hc⟩ := makeReservation_inv h
  rcases hc with ⟨-, h1, h2, h3⟩ | ⟨n, e, -, -, h1, h2, h3⟩ | ⟨n, -, ha, hcr⟩
  · exact Or.inl ⟨h1, h2, Or.inl h3⟩
  · exact Or.inl ⟨h1, h2, Or.inr (Or.inl ⟨e, h3⟩)⟩
  · obtain ⟨r, s, hs, hcase⟩ := completeReservation_spec hcr
    rcases hcase with ⟨h1, h2, h3⟩ | ⟨h1, h2, h3⟩
    · exact Or.inl ⟨h1, h2, Or.inr (Or.inr ⟨n, r, s, h3, hs⟩)⟩
    · exact Or.inr ⟨n, _, r, s, ha, hs, h1, h2, h3⟩

/-! ## C1: category enforcement -/

/-- C1 (evaluation of the code at the failing input).  In the hotel produced by
`initializeRooms` when every `rand()` call returns 0 (40 rooms, rooms 1 to 20 single),
room 1 is single and vacant; a guest who asks for a double room and enters room
number 1 manually gets room 1: `makeReservation` returns the reservation ID 10000
instead of -1 and room 1, still single, is booked. -/
theorem double_request_books_single_room :
    ((main 0 ⟨[], fun _ => 0⟩).bind (fun p =>
        (roomAt p.1.rooms 0).map (fun r => (p.1.totalRooms, r.number, r.isSingle, r.isBooked)))
      = some (40, 1, true, false)) ∧
    ((main 0 ⟨[], fun _ => 0⟩).bind (fun p =>
        (makeReservation p.1 ⟨doubleManualRoomOne, fun _ => 0⟩).bind (fun res =>
          (roomAt res.globals.rooms 0).map
            (fun r => (res.ret, r.number, r.isSingle, r.isBooked))))
      = some (10000, 1, true, true)) := by
  constructor <;> decide

/-! ## C2: `isRoomAvailable` -/

/-- C2.  `isRoomAvailable(roomNumber, requireSingle)` on any integer room number: outside
`[1, totalRooms]` it returns false with "Invalid room number" before any access to the
table; on a table of `totalRooms` rooms it always returns (the table is never indexed
out of bounds), and it returns false exactly when the number is out of range, or a
single room is required and the room is not single, or the room is booked. -/
theorem isRoomAvailable_three_way (g : Globals) (roomNumber : Int) (requireSingle : Bool) :
    ((roomNumber < 1 ∨ roomNumber > g.totalRooms) →
      isRoomAvailable g roomNumber requireSingle
        = some (false, some AvailError.invalidRoomNumber)) ∧
    (WellFormed g →
      ∃ b e, isRoomAvailable g roomNumber requireSingle = some (b, e) ∧
        (b = false ↔
          ((roomNumber < 1 ∨ roomNumber > g.totalRooms) ∨
            ∃ r, roomAt g.rooms (roomNumber - 1) = some r ∧
              ((requireSingle = true ∧ r.isSingle = false) ∨ r.isBooked = true)))) := by
  constructor
  · intro h
    simp [isRoomAvailable, h]
  · intro hwf
    by_cases hr : roomNumber < 1 ∨ roomNumber > g.totalRooms
    · exact ⟨false, some AvailError.invalidRoomNumber, by simp [isRoomAvailable, hr],
        by simp [hr]⟩
    · obtain ⟨r, hra⟩ := roomAt_of_range hwf (n := roomNumber) (by omega) (by omega)
      unfold isRoomAvailable
      rw [if_neg hr, hra]
      simp only
      by_cases h1 : (requireSingle && !r.isSingle) = true
      · rw [if_pos h1]
        refine ⟨false, _, rfl, ?_⟩
        simp only [true_iff]
        right
        refine ⟨r, rfl, Or.inl ?_⟩
        simpa using h1
      · rw [if_neg h1]
        by_cases h2 : r.isBooked = true
        · rw [if_pos h2]
          exact ⟨false, _, rfl, by simp only [true_iff]; exact Or.inr ⟨r, rfl, Or.inr h2⟩⟩
        · rw [if_neg h2]
          refine ⟨true, _, rfl, ?_⟩
          simp only [Bool.true_eq_false, false_iff, not_or, not_exists, not_and]
          refine ⟨not_or.mp hr, ?_⟩
          intro r2 hr2
          cases hr2
          refine ⟨?_, h2⟩
          intro hs hns
          apply h1
          simp [hs, hns]

/-- C2 at room 2 (double) of the two-room table with a single room required. -/
theorem isRoomAvailable_three_way_witness :
    WellFormed twoRooms ∧
    ∃ b e, isRoomAvailable twoRooms 2 true = some (b, e) ∧
      (b = false ↔
        (((2 : Int) < 1 ∨ (2 : Int) > twoRooms.totalRooms) ∨
          ∃ r, roomAt twoRooms.rooms (2 - 1) = some r ∧
            (((true : Bool) = true ∧ r.isSingle = false) ∨ r.isBooked = true))) :=
  ⟨by decide, (isRoomAvailable_three_way twoRooms 2 true).2 (by decide)⟩

/-! ## C3: atomic rejection -/

theorem bookRoom_false {g : Globals} {n : Int} {guestName : String} {nights : Int} {env : Env}
    {g2 : Globals} {env2 : Env}
    (h : bookRoom g n guestName nights env = some (false, g2, env2)) : g2 = g := by
  unfold bookRoom at h
  by_cases hr : n < 1 ∨ n > g.totalRooms
  · rw [if_pos hr] at h
    simp only [Option.some.injEq, Prod.mk.injEq, true_and] at h
    exact h.1.symm
  · rw [if_neg hr] at h
    cases hra : roomAt g.rooms (n - 1) with
    | none => rw [hra] at h; simp at h
    | some r =>
      rw [hra] at h
      simp only at h
      by_cases hb : r.isBooked = true
      · rw [if_pos hb] at h
        simp only [Option.some.injEq, Prod.mk.injEq, true_and] at h
        exact h.1.symm
      · rw [if_neg hb] at h
        simp only [updateRoom, hra] at h
        simp at h

/-- C3.  Whenever `makeReservation` returns -1 (no room of the requested type, failed
availability check, or a confirmation answer other than 1) the globals after the call
are the globals before it; whenever `bookRoom` returns false the same holds. -/
theorem rejection_leaves_globals_unchanged (g : Globals) (env : Env) :
    (∀ res, makeReservation g env = some res → res.ret = -1 →
      res.globals = g ∧
        (res.report = ReservationReport.noAvailableRooms ∨
         (∃ e, res.report = ReservationReport.notAvailable e) ∨
         (∃ s, res.report = ReservationReport.cancelled s))) ∧
    (∀ roomNumber guestName nights g2 env2,
      bookRoom g roomNumber guestName nights env = some (false, g2, env2) → g2 = g) := by
  constructor
  · intro res h hret
    rcases makeReservation_spec h with ⟨-, hg, hrep⟩ | ⟨n, rs, r, s, -, hs, hr, -, -⟩
    · refine ⟨hg, ?_⟩
      rcases hrep with h1 | h1 | ⟨n, r, s, h1, -⟩
      · exact Or.inl h1
      · exact Or.inr (Or.inl h1)
      · exact Or.inr (Or.inr ⟨s, h1⟩)
    · have := hs.2.2.2.2.2.2.1
      omega
  · intro n guestName nights g2 env2 h
    exact bookRoom_false h

/-- C3 at a declined confirmation on the two-room table, and at `bookRoom` on room 3
of that table. -/
theorem rejection_leaves_globals_unchanged_witness :
    (∃ res, makeReservation twoRooms ⟨singleManualDeclined, fun _ => 0⟩ = some res ∧
      res.ret = -1 ∧ res.globals = twoRooms) ∧
    (∃ g2 env2, bookRoom twoRooms 3 "Bob" 2 ⟨[], fun _ => 0⟩ = some (false, g2, env2) ∧
      g2 = twoRooms) := by
  obtain ⟨res, hres, hret⟩ := exists_of_map_eq_some
    (show (makeReservation twoRooms ⟨singleManualDeclined, fun _ => 0⟩).map (fun res => res.ret)
      = some (-1) by decide)
  exact ⟨⟨res, hres, hret,
      ((rejection_leaves_globals_unchanged twoRooms ⟨singleManualDeclined, fun _ => 0⟩).1
        res hres hret).1⟩,
    ⟨twoRooms, ⟨[], fun _ => 0⟩, rfl,
      (rejection_leaves_globals_unchanged twoRooms ⟨[], fun _ => 0⟩).2 3 "Bob" 2 _ _ rfl⟩⟩

/-! ## C4: the price formula -/

theorem applyBreakfast_eq (p : ℚ) (b : Bool) :
    applyBreakfast p b = if b = true then p * 0.95 else p := rfl

theorem summary_totalPrice {g : Globals} {n : Int} {r : Room} {s : Summary}
    (h : SummaryFor g n r s) :
    s.totalPrice =
      if s.hasBreakfast = true then s.basePrice * (s.nights : ℚ) * (1 - s.discount) * 0.95
      else s.basePrice * (s.nights : ℚ) * (1 - s.discount) := by
  obtain ⟨-, -, -, hb, -, -, -, ht⟩ := h
  rw [ht, hb, applyBreakfast_eq]

/-- C4.  The total computed for a reservation, `calculateFinalPrice` followed by the
breakfast step, is `basePrice * nights * (1 - discount)`, multiplied by 0.95 when
breakfast is included (prices are exact rationals); this is the total shown in the
summary of `makeReservation`.  With base price 100, 3 nights and discount 0.10 the
total is 270 without breakfast and 256.5 with breakfast, which is not the total for the
discount rate 0.10 + 0.05. -/
theorem price_formula :
    (∀ (g : Globals) (roomNumber nights : Int) (discount : ℚ) (breakfast : Bool) (r : Room),
      roomAt g.rooms (roomNumber - 1) = some r →
      (calculateFinalPrice g roomNumber nights discount).map
          (fun p => applyBreakfast p breakfast) =
        some (if breakfast = true then r.basePrice * (nights : ℚ) * (1 - discount) * 0.95
              else r.basePrice * (nights : ℚ) * (1 - discount))) ∧
    (∀ (g : Globals) (env : Env) (res : ReservationResult) (s : Summary),
      makeReservation g env = some res →
      (res.report = ReservationReport.confirmed s ∨
        res.report = ReservationReport.cancelled s) →
      s.totalPrice =
        if s.hasBreakfast = true then s.basePrice * (s.nights : ℚ) * (1 - s.discount) * 0.95
        else s.basePrice * (s.nights : ℚ) * (1 - s.discount)) ∧
    (calculateFinalPrice oneRoomAtHundred 1 3 0.10).map (fun p => applyBreakfast p false)
      = some 270 ∧
    (calculateFinalPrice oneRoomAtHundred 1 3 0.10).map (fun p => applyBreakfast p true)
      = some 256.5 ∧
    (calculateFinalPrice oneRoomAtHundred 1 3 0.10).map (fun p => applyBreakfast p true)
      ≠ calculateFinalPrice oneRoomAtHundred 1 3 (0.10 + 0.05) := by
  refine ⟨?_, ?_, ?_, ?_, ?_⟩
  · intro g roomNumber nights discount breakfast r hr
    simp only [calculateFinalPrice, hr, Option.map_some', applyBreakfast_eq]
  · intro g env res s h hrep
    rcases makeReservation_spec h with ⟨-, -, h1 | ⟨e, h1⟩ | ⟨n, r, s2, h1, hs⟩⟩ |
      ⟨n, rs, r, s2, -, hs, -, -, h1⟩
    · rw [h1] at hrep
      simp at hrep
    · rw [h1] at hrep
      simp at hrep
    · rw [h1] at hrep
      simp only [ReservationReport.cancelled.injEq, false_or, reduceCtorEq] at hrep
      subst hrep
      exact summary_totalPrice hs
    · rw [h1] at hrep
      simp only [ReservationReport.confirmed.injEq, or_false, reduceCtorEq] at hrep
      subst hrep
      exact summary_totalPrice hs
  · simp [calculateFinalPrice, roomAt, oneRoomAtHundred, applyBreakfast_eq]
    norm_num
  · simp [calculateFinalPrice, roomAt, oneRoomAtHundred, applyBreakfast_eq]
    norm_num
  · simp [calculateFinalPrice, roomAt, oneRoomAtHundred, applyBreakfast_eq]
    norm_num

/-- C4 at room 2 of the two-room table (base price 120, 7 nights, discount 0.20,
breakfast) and at a declined attempt on room 1 of that table. -/
theorem price_formula_witness :
    ((calculateFinalPrice twoRooms 2 7 0.20).map (fun p => applyBreakfast p true) =
      some (if (true : Bool) = true then (120 : ℚ) * ((7 : Int) : ℚ) * (1 - 0.20) * 0.95
            else (120 : ℚ) * ((7 : Int) : ℚ) * (1 - 0.20))) ∧
    (∃ res s, makeReservation twoRooms ⟨singleManualDeclined, fun _ => 0⟩ = some res ∧
      res.report = ReservationReport.cancelled s ∧
      s.totalPrice =
        if s.hasBreakfast = true then s.basePrice * (s.nights : ℚ) * (1 - s.discount) * 0.95
        else s.basePrice * (s.nights : ℚ) * (1 - s.discount)) := by
  constructor
  · exact price_formula.1 twoRooms 2 7 0.20 true
      { Room.zero with number := 2, isSingle := false, basePrice := 120 } (by decide)
  · obtain ⟨res, hres, hrep⟩ := exists_of_map_eq_some
      (show (makeReservation twoRooms ⟨singleManualDeclined, fun _ => 0⟩).map
          (fun res => match res.report with
            | ReservationReport.cancelled _ => true
            | _ => false)
        = some true by decide)
    cases hr : res.report with
    | cancelled s =>
      exact ⟨res, s, hres, hr, price_formula.2.1 twoRooms _ res s hres (Or.inr hr)⟩
    | noAvailableRooms => rw [hr] at hrep; simp at hrep
    | notAvailable e => rw [hr] at hrep; simp at hrep
    | confirmed s => rw [hr] at hrep; simp at hrep

/-! ## What the menu operations preserve -/

theorem Extends.refl (g : Globals) : Extends g g :=
  ⟨rfl, rfl, rfl, rfl, fun _ r h => ⟨r, h, rfl, rfl, rfl, fun _ => rfl⟩⟩

theorem Extends.trans {g1 g2 g3 : Globals} (h12 : Extends g1 g2) (h23 : Extends g2 g3) :
    Extends g1 g3 := by
  obtain ⟨a1, a2, a3, a4, a5⟩ := h12
  obtain ⟨b1, b2, b3, b4, b5⟩ := h23
  refine ⟨by rw [b1, a1], by rw [b2, a2], by rw [b3, a3], by rw [b4, a4], ?_⟩
  intro i r hr
  obtain ⟨r2, hr2, n2, s2, p2, k2⟩ := a5 i r hr
  obtain ⟨r3, hr3, n3, s3, p3, k3⟩ := b5 i r2 hr2
  refine ⟨r3, hr3, by rw [n3, n2], by rw [s3, s2], by rw [p3, p2], ?_⟩
  intro hb
  have e2 := k2 hb
  subst e2
  exact k3 hb

/-- Committing a reservation on a vacant room continues the globals. -/
theorem extends_commit {g : Globals} {n : Int} {r : Room} {s : Summary}
    (hr : roomAt g.rooms (n - 1) = some r) (hv : r.isBooked = false) :
    Extends g { g with rooms := g.rooms.set (n - 1).toNat (commitRoom r s) } := by
  obtain ⟨-, hlt, hget⟩ := roomAt_eq_some hr
  generalize (n - 1).toNat = k at hlt hget ⊢
  refine ⟨rfl, rfl, rfl, by simp, ?_⟩
  intro i ri hri
  by_cases hi : k = i
  · subst hi
    rw [hget] at hri
    cases hri
    refine ⟨commitRoom r s, by simp [hlt], rfl, rfl, rfl, ?_⟩
    intro hb
    rw [hv] at hb
    cases hb
  · exact ⟨ri, by simp [List.getElem?_set_ne hi, hri], rfl, rfl, rfl, fun _ => rfl⟩

theorem makeReservation_extends {g : Globals} {env : Env} {res : ReservationResult}
    (h : makeReservation g env = some res) : Extends g res.globals := by
  rcases makeReservation_spec h with ⟨-, hg, -⟩ | ⟨n, rs, r, s, ha, hs, -, hg, -⟩
  · rw [hg]
    exact Extends.refl g
  · rw [hg]
    obtain ⟨-, -, -, r2, hr2, hv, -⟩ := isRoomAvailable_true ha
    have hr := hs.1
    rw [hr2] at hr
    cases hr
    exact extends_commit hr2 hv

theorem mainLoopBody_extends {g : Globals} {env : Env} {b : Bool} {g2 : Globals} {env2 : Env}
    (h : mainLoopBody g env = some (b, g2, env2)) : Extends g g2 := by
  unfold mainLoopBody at h
  cases hc : getValidatedInput 1 5 env.input with
  | none => rw [hc] at h; simp at h
  | some p =>
    obtain ⟨choice, input⟩ := p
    rw [hc] at h
    simp only at h
    split_ifs at h
    · cases hm : makeReservation g { env with input := input } with
      | none => rw [hm] at h; simp at h
      | some res =>
        rw [hm] at h
        simp only [Option.some.injEq, Prod.mk.injEq] at h
        rw [← h.2.1]
        exact makeReservation_extends hm
    · cases hm : viewReservations g with
      | none => rw [hm] at h; simp at h
      | some res =>
        rw [hm] at h
        simp only [Option.some.injEq, Prod.mk.injEq] at h
        rw [← h.2.1]
        exact Extends.refl g
    · cases hm : searchReservation g { env with input := input } with
      | none => rw [hm] at h; simp at h
      | some res =>
        rw [hm] at h
        simp only [Option.some.injEq, Prod.mk.injEq] at h
        rw [← h.2.1]
        exact Extends.refl g
    · cases hm : displayAvailableRooms g with
      | none => rw [hm] at h; simp at h
      | some res =>
        rw [hm] at h
        simp only [Option.some.injEq, Prod.mk.injEq] at h
        rw [← h.2.1]
        exact Extends.refl g
    · simp only [Option.some.injEq, Prod.mk.injEq] at h
      rw [← h.2.1]
      exact Extends.refl g
    · simp only [Option.some.injEq, Prod.mk.injEq] at h
      rw [← h.2.1]
      exact Extends.refl g

theorem reachableFrom_extends {g1 g2 : Globals} (h : ReachableFrom g1 g2) : Extends g1 g2 := by
  induction h with
  | refl => exact Extends.refl g1
  | tail _ hstep ih =>
    obtain ⟨env, env2, hb⟩ := hstep
    exact ih.trans (mainLoopBody_extends hb)

/-! ## Loops over the room table -/

/-- Loop rule for `forRooms`: if every iteration of the body, run on a state satisfying
the invariant `P i`, either continues with `P (i + 1)` or breaks with `Q`, then the
loop over indices inside the table returns, with `P` at the final index or `Q`. -/
theorem forRooms_rule {σ : Type} (rooms : List Room)
    (body : σ → Nat → Room → Option (ForInStep σ)) (P : Nat → σ → Prop) (Q : σ → Prop)
    (hstep : ∀ s i r, rooms[i]? = some r → P i s →
      (∃ s2, body s i r = some (ForInStep.yield s2) ∧ P (i + 1) s2) ∨
      (∃ s2, body s i r = some (ForInStep.done s2) ∧ Q s2)) :
    ∀ k i s, i + k ≤ rooms.length → P i s →
      ∃ s2, forRooms rooms body k i s = some s2 ∧ (P (i + k) s2 ∨ Q s2) := by
  intro k
  induction k with
  | zero =>
    intro i s _ hP
    exact ⟨s, rfl, Or.inl hP⟩
  | succ k ih =>
    intro i s hlen hP
    have hlt : i < rooms.length := by omega
    have hget : rooms[i]? = some rooms[i] := List.getElem?_eq_getElem hlt
    unfold forRooms
    rw [hget]
    simp only
    rcases hstep s i rooms[i] hget hP with ⟨s2, hb, hP2⟩ | ⟨s2, hb, hQ⟩
    · rw [hb]
      simp only
      obtain ⟨s3, h3, hpost⟩ := ih (i + 1) s2 (by omega) hP2
      refine ⟨s3, h3, ?_⟩
      rw [show i + (k + 1) = i + 1 + k by omega]
      exact hpost
    · rw [hb]
      exact ⟨s2, rfl, Or.inr hQ⟩

theorem roomAt_succ_sub_one (rooms : List Room) (i : Nat) :
    roomAt rooms ((i : Int) + 1 - 1) = rooms[i]? := by
  unfold roomAt
  rw [if_neg (by omega)]
  congr 1
  omega

theorem wellFormed_toNat {g : Globals} (hwf : WellFormed g) :
    g.totalRooms.toNat = g.rooms.length := by
  unfold WellFormed at hwf
  omega

/-- The candidate list of the system-assigned mode: on a table of `totalRooms` rooms
the loop returns the strictly ascending list of the numbers of the vacant rooms of the
requested type. -/
theorem collectAvailable_spec {g : Globals} (hwf : WellFormed g) (requireSingle : Bool) :
    ∃ L, collectAvailable g requireSingle = some L ∧ L.Pairwise (fun a b => a < b) ∧
      ∀ n : Int, n ∈ L ↔
        (1 ≤ n ∧ n ≤ g.totalRooms ∧
          ∃ r, roomAt g.rooms (n - 1) = some r ∧ r.isBooked = false ∧
            r.isSingle = requireSingle) := by
  have key := forRooms_rule g.rooms
    (fun (availableRooms : List Int) i r =>
      if !r.isBooked then
        if (requireSingle && r.isSingle) || (!requireSingle && !r.isSingle) then
          some (ForInStep.yield (availableRooms ++ [(i : Int) + 1]))
        else some (ForInStep.yield availableRooms)
      else some (ForInStep.yield availableRooms))
    (fun i L => L.Pairwise (fun a b => a < b) ∧
      ∀ n : Int, n ∈ L ↔
        (1 ≤ n ∧ n ≤ (i : Int) ∧
          ∃ r, roomAt g.rooms (n - 1) = some r ∧ r.isBooked = false ∧
            r.isSingle = requireSingle))
    (fun _ => False) ?_ g.totalRooms.toNat 0 [] (by rw [wellFormed_toNat hwf]; omega)
    ⟨List.Pairwise.nil, by intro n; simp; omega⟩
  · obtain ⟨L, hL, hpost⟩ := key
    rcases hpost with ⟨hsorted, hmem⟩ | hf
    · refine ⟨L, hL, hsorted, ?_⟩
      intro n
      rw [hmem n]
      have : ((0 + g.totalRooms.toNat : Nat) : Int) = g.totalRooms := by
        unfold WellFormed at hwf
        omega
      rw [this]
    · exact hf.elim
  · intro L i r hget ⟨hsorted, hmem⟩
    left
    have hroom : roomAt g.rooms ((i : Int) + 1 - 1) = some r := by
      rw [roomAt_succ_sub_one, hget]
    by_cases hq : r.isBooked = false ∧ r.isSingle = requireSingle
    · refine ⟨L ++ [(i : Int) + 1], ?_, ?_, ?_⟩
      · obtain ⟨hb, hs⟩ := hq
        subst hs
        cases hrs : r.isSingle <;> simp [hb, hrs]
      · rw [List.pairwise_append]
        refine ⟨hsorted, List.pairwise_singleton _ _, ?_⟩
        intro a ha b hb
        have ha2 := ((hmem a).mp ha).2.1
        simp only [List.mem_singleton] at hb
        omega
      · intro n
        simp only [List.mem_append, List.mem_singleton, hmem n]
        constructor
        · rintro (⟨h1, h2, h3⟩ | h)
          · exact ⟨h1, by push_cast; omega, h3⟩
          · subst h
            exact ⟨by omega, by push_cast; omega, r, hroom, hq.1, hq.2⟩
        · rintro ⟨h1, h2, h3⟩
          by_cases hn : n = (i : Int) + 1
          · exact Or.inr hn
          · exact Or.inl ⟨h1, by push_cast at h2; omega, h3⟩
    · refine ⟨L, ?_, hsorted, ?_⟩
      · cases hb : r.isBooked <;> cases hs : r.isSingle <;> cases requireSingle <;>
          simp_all
      · intro n
        rw [hmem n]
        constructor
        · rintro ⟨h1, h2, h3⟩
          exact ⟨h1, by push_cast; omega, h3⟩
        · rintro ⟨h1, h2, r2, hr2, hv, hs⟩
          by_cases hn : n = (i : Int) + 1
          · subst hn
            rw [hroom] at hr2
            cases hr2
            exact (hq ⟨hv, hs⟩).elim
          · exact ⟨h1, by push_cast at h2; omega, r2, hr2, hv, hs⟩

/-! ## Initialization -/

theorem updateLoop_spec (body : Nat → Room → Room) :
    ∀ (k i : Nat) (rooms : List Room), i + k ≤ rooms.length →
      ∃ rooms2, updateLoop body k i rooms = some rooms2 ∧ rooms2.length = rooms.length ∧
        ∀ j : Nat, rooms2[j]? =
          if i ≤ j ∧ j < i + k then (rooms[j]?).map (body j) else rooms[j]? := by
  intro k
  induction k with
  | zero =>
    intro i rooms _
    refine ⟨rooms, rfl, rfl, ?_⟩
    intro j
    rw [if_neg (by omega)]
  | succ k ih =>
    intro i rooms hlen
    have hlt : i < rooms.length := by omega
    have hget : rooms[i]? = some rooms[i] := List.getElem?_eq_getElem hlt
    unfold updateLoop
    rw [hget]
    simp only
    obtain ⟨rooms2, h2, hl2, hj2⟩ := ih (i + 1) (rooms.set i (body i rooms[i]))
      (by rw [List.length_set]; omega)
    refine ⟨rooms2, h2, by rw [hl2, List.length_set], ?_⟩
    intro j
    rw [hj2 j]
    by_cases hji : j = i
    · subst hji
      rw [if_neg (by omega), if_pos (by omega), hget]
      simp [hlt]
    · rw [List.getElem?_set_ne (Ne.symm hji)]
      by_cases hc : i + 1 ≤ j ∧ j < i + 1 + k
      · rw [if_pos hc, if_pos (by omega)]
      · rw [if_neg hc, if_neg (by omega)]

theorem length_resize (rooms : List Room) (n : Nat) : (resize rooms n).length = n := by
  unfold resize
  rw [List.length_take, List.length_append, List.length_replicate]
  omega

/-- The effect of `initializeRooms`: it always returns; the counters are computed from
the first random draw and the table holds `totalRooms` rooms, the room at index `j`
numbered `j + 1`, vacant, single at the single price in the first half and double at
the double price in the second half. -/
theorem initializeRooms_spec (g : Globals) (env : Env) :
    ∃ g2 env2, initializeRooms g env = some (g2, env2) ∧
      g2.totalRooms = 40 + 2 * ((env.rand 0 : Int) % 131) ∧
      g2.singleRoomsCount = g2.totalRooms / 2 ∧
      g2.doubleRoomsCount = g2.totalRooms / 2 ∧
      (g2.rooms.length : Int) = g2.totalRooms ∧
      ∀ j : Nat, (j : Int) < g2.totalRooms →
        ∃ r, g2.rooms[j]? = some r ∧ r.number = (j : Int) + 1 ∧ r.isBooked = false ∧
          r.reservationId = 0 ∧ r.nights = 0 ∧ r.discountRate = 0 ∧
          r.includesBreakfast = false ∧
          ((j : Int) < g2.singleRoomsCount →
            r.isSingle = true ∧ r.basePrice = ((80 + (env.rand 1 : Int) % 21 : Int) : ℚ)) ∧
          (¬ (j : Int) < g2.singleRoomsCount →
            r.isSingle = false ∧
              r.basePrice = ((120 + (env.rand 2 : Int) % 31 : Int) : ℚ)) := by
  have hT : ¬ ((40 + 2 * ((env.rand 0 : Int) % 131)) % 2 ≠ 0) := by omega
  unfold initializeRooms
  simp only [rand, hT, if_false]
  generalize hTd : (40 + 2 * ((env.rand 0 : Int) % 131)) = T
  have hT0 : 0 ≤ T := by omega
  generalize hbody : (fun (i : Nat) (r : Room) =>
      if (i : Int) < T / 2 then
        ({ number := (i : Int) + 1, isSingle := true, isBooked := false, reservationId := 0,
           guestName := r.guestName, nights := 0,
           basePrice := ((80 + (env.rand (0 + 1) : Int) % 21 : Int) : ℚ),
           discountRate := 0, includesBreakfast := false } : Room)
      else
        ({ number := (i : Int) + 1, isSingle := false, isBooked := false, reservationId := 0,
           guestName := r.guestName, nights := 0,
           basePrice := ((120 + (env.rand (0 + 1 + 1) : Int) % 31 : Int) : ℚ),
           discountRate := 0, includesBreakfast := false } : Room)) = body
  obtain ⟨rooms2, h2, hl2, hj2⟩ := updateLoop_spec body T.toNat 0 (resize g.rooms T.toNat)
    (by rw [length_resize]; omega)
  rw [h2]
  refine ⟨_, _, rfl, rfl, rfl, rfl, ?_, ?_⟩
  · simp only
    rw [hl2, length_resize]
    omega
  · intro j hj
    simp only at hj ⊢
    have hjT : j < T.toNat := by omega
    have hjl : j < (resize g.rooms T.toNat).length := by rw [length_resize]; exact hjT
    rw [hj2 j, if_pos (by omega), List.getElem?_eq_getElem hjl]
    refine ⟨body j (resize g.rooms T.toNat)[j], rfl, ?_⟩
    rw [← hbody]
    by_cases hs : (j : Int) < T / 2
    · simp [hs]
    · simp [hs]

theorem numbered_iff (g : Globals) :
    Numbered g ↔ ∀ (i : Nat) (r : Room), g.rooms[i]? = some r → r.number = (i : Int) + 1 := by
  unfold Numbered
  constructor
  · intro h i r hr
    have hlt : i < g.rooms.length := (List.getElem?_eq_some.mp hr).1
    have h2 := congrArg (fun l => l[i]?) h
    simp only [List.getElem?_map, hr, Option.map_some', List.getElem?_range hlt] at h2
    exact Option.some.inj h2
  · intro h
    apply List.ext_getElem?
    intro i
    simp only [List.getElem?_map]
    by_cases hlt : i < g.rooms.length
    · rw [List.getElem?_range hlt, List.getElem?_eq_getElem hlt]
      simp only [Option.map_some', Option.some.injEq]
      exact h i _ (List.getElem?_eq_getElem hlt)
    · rw [List.getElem?_eq_none (by omega), List.getElem?_eq_none (by simp; omega)]
      rfl

theorem wellFormed_of_extends {g1 g2 : Globals} (h : Extends g1 g2) (hwf : WellFormed g1) :
    WellFormed g2 := by
  unfold WellFormed at hwf ⊢
  rw [h.1, h.2.2.2.1]
  exact hwf

theorem numbered_of_extends {g1 g2 : Globals} (h : Extends g1 g2) (hn : Numbered g1) :
    Numbered g2 := by
  rw [numbered_iff] at hn ⊢
  intro i r2 hr2
  have hlt : i < g1.rooms.length := by
    rw [← h.2.2.2.1]
    exact (List.getElem?_eq_some.mp hr2).1
  obtain ⟨r3, hr3, hnum, -⟩ := h.2.2.2.2 i _ (List.getElem?_eq_getElem hlt)
  rw [hr2] at hr3
  cases hr3
  rw [hnum]
  exact hn i _ (List.getElem?_eq_getElem hlt)

/-- Every state of a run of the program holds exactly `totalRooms` rooms, numbered
`1..totalRooms` in table order. -/
theorem reachable_invariants {g : Globals} (h : Reachable g) : WellFormed g ∧ Numbered g := by
  obtain ⟨env, g0, env0, hinit, hreach⟩ := h
  obtain ⟨g2, env2, h2, -, -, -, hlen, hrooms⟩ := initializeRooms_spec Globals.start env
  rw [hinit] at h2
  cases h2
  have hext := reachableFrom_extends hreach
  refine ⟨wellFormed_of_extends hext hlen, numbered_of_extends hext ?_⟩
  rw [numbered_iff]
  intro i r hr
  have hlt : i < g0.rooms.length := (List.getElem?_eq_some.mp hr).1
  obtain ⟨r2, hr2, hnum, -⟩ := hrooms i (by omega)
  rw [hr] at hr2
  cases hr2
  exact hnum

/-! ## C7: room count at initialization -/

/-- C7.  For every random draw `r = env.rand 0`, `initializeRooms` returns with
`totalRooms = 40 + 2 * (r mod 131)`, which is even and lies in `[40, 300]`, and with
`singleRoomsCount = doubleRoomsCount = totalRooms / 2`; the two counts add up to
`totalRooms` and neither exceeds 150. -/
theorem initializeRooms_room_count (g : Globals) (env : Env) :
    ∃ g2 env2, initializeRooms g env = some (g2, env2) ∧
      g2.totalRooms = 40 + 2 * ((env.rand 0 : Int) % 131) ∧
      g2.totalRooms % 2 = 0 ∧ 40 ≤ g2.totalRooms ∧ g2.totalRooms ≤ 300 ∧
      g2.singleRoomsCount = g2.totalRooms / 2 ∧ g2.doubleRoomsCount = g2.totalRooms / 2 ∧
      g2.singleRoomsCount + g2.doubleRoomsCount = g2.totalRooms ∧
      g2.singleRoomsCount ≤ 150 ∧ g2.doubleRoomsCount ≤ 150 := by
  obtain ⟨g2, env2, h, hT, hs, hd, -, -⟩ := initializeRooms_spec g env
  refine ⟨g2, env2, h, hT, ?_, ?_, ?_, hs, hd, ?_, ?_, ?_⟩ <;> omega

/-! ## C8: the initial room table -/

/-- C8.  After `initializeRooms`, for every random stream, the table has exactly
`totalRooms` rooms and for every `i` in `[1, totalRooms]` the `i`-th room has number
`i`, is vacant, and is single with base price `pS` if `i ≤ singleRoomsCount` and double
with base price `pD` otherwise, where `pS` in `[80, 100]` and `pD` in `[120, 150]` do
not depend on `i`. -/
theorem initializeRooms_room_table (g : Globals) (env : Env) :
    ∃ g2 env2, ∃ pS pD : Int, initializeRooms g env = some (g2, env2) ∧
      (g2.rooms.length : Int) = g2.totalRooms ∧
      (80 ≤ pS ∧ pS ≤ 100) ∧ (120 ≤ pD ∧ pD ≤ 150) ∧
      ∀ i : Int, 1 ≤ i → i ≤ g2.totalRooms →
        ∃ r, roomAt g2.rooms (i - 1) = some r ∧ r.number = i ∧ r.isBooked = false ∧
          (i ≤ g2.singleRoomsCount → r.isSingle = true ∧ r.basePrice = (pS : ℚ)) ∧
          (g2.singleRoomsCount < i → r.isSingle = false ∧ r.basePrice = (pD : ℚ)) := by
  obtain ⟨g2, env2, h, -, -, -, hlen, hrooms⟩ := initializeRooms_spec g env
  refine ⟨g2, env2, 80 + (env.rand 1 : Int) % 21, 120 + (env.rand 2 : Int) % 31, h, hlen,
    by omega, by omega, ?_⟩
  intro i h1 h2
  obtain ⟨r, hr, hnum, hv, -, -, -, -, hS, hD⟩ := hrooms (i - 1).toNat (by omega)
  have hi : ((i - 1).toNat : Int) = i - 1 := by omega
  refine ⟨r, ?_, by rw [hnum]; omega, hv, ?_, ?_⟩
  · unfold roomAt
    rw [if_neg (by omega)]
    exact hr
  · intro hle
    exact hS (by omega)
  · intro hgt
    exact hD (by omega)

/-- C8 at the random stream that is constantly 0: room 21 of the 40 rooms is the first
double room. -/
theorem initializeRooms_room_table_witness :
    ∃ g2 env2, initializeRooms Globals.start ⟨[], fun _ => 0⟩ = some (g2, env2) ∧
      g2.totalRooms = 40 ∧ g2.singleRoomsCount = 20 ∧
      ∃ r, roomAt g2.rooms (21 - 1) = some r ∧ r.number = 21 ∧ r.isBooked = false ∧
        r.isSingle = false := by
  obtain ⟨g2, env2, pS, pD, h, -, -, -, hall⟩ :=
    initializeRooms_room_table Globals.start ⟨[], fun _ => 0⟩
  have ht : (initializeRooms Globals.start ⟨[], fun _ => 0⟩).map
      (fun p => (p.1.totalRooms, p.1.singleRoomsCount)) = some (40, 20) := by decide
  rw [h] at ht
  simp only [Option.map_some', Option.some.injEq, Prod.mk.injEq] at ht
  obtain ⟨r, hr, hnum, hv, -, hD⟩ := hall 21 (by omega) (by omega)
  exact ⟨g2, env2, h, ht.1, ht.2, r, hr, hnum, hv, (hD (by omega)).1⟩

/-! ## The query loops -/

theorem reservationLine_eq {g : Globals} {i : Nat} {r : Room} (h : g.rooms[i]? = some r) :
    reservationLine g i r = some (lineOf r) := by
  unfold reservationLine calculateFinalPrice
  rw [roomAt_succ_sub_one, h]
  rfl

theorem take_succ_of_get {rooms : List Room} {i : Nat} {r : Room} (h : rooms[i]? = some r) :
    rooms.take (i + 1) = rooms.take i ++ [r] := by
  rw [List.take_succ, h]
  rfl

/-- A loop that prints the line of every room passing the test `p`, without `break`,
prints the lines of the rooms passing `p` in table order. -/
theorem filterLoop_spec (rooms : List Room)
    (body : QueryReport → Nat → Room → Option (ForInStep QueryReport)) (p : Room → Bool)
    (hbody : ∀ s i r, rooms[i]? = some r →
      body s i r = some (ForInStep.yield
        (if p r = true then { lines := s.lines ++ [lineOf r], found := true } else s))) :
    forRooms rooms body rooms.length 0 { lines := [], found := false } =
      some { lines := (rooms.filter p).map lineOf, found := rooms.any p } := by
  have key := forRooms_rule rooms body
    (fun i s => s = { lines := ((rooms.take i).filter p).map lineOf,
                      found := (rooms.take i).any p })
    (fun _ => False) ?_ rooms.length 0 { lines := [], found := false } (by omega) (by simp)
  · obtain ⟨s, hs, hpost⟩ := key
    rcases hpost with hP | hf
    · rw [hs, hP]
      simp only [Nat.zero_add, List.take_length]
    · exact hf.elim
  · intro s i r hget hP
    left
    refine ⟨_, hbody s i r hget, ?_⟩
    simp only
    rw [take_succ_of_get hget, List.filter_append, List.map_append, List.any_append, hP]
    by_cases hp : p r = true
    · simp [hp]
    · simp [hp]

theorem viewReservations_spec {g : Globals} (hwf : WellFormed g) :
    viewReservations g =
      some { lines := (g.rooms.filter (fun r => r.isBooked)).map lineOf,
             found := g.rooms.any (fun r => r.isBooked) } := by
  unfold viewReservations
  rw [wellFormed_toNat hwf]
  apply filterLoop_spec
  intro s i r hget
  rw [reservationLine_eq hget]
  by_cases hb : r.isBooked = true
  · simp [hb]
  · simp [hb]

theorem searchByName_spec {g : Globals} (hwf : WellFormed g) (searchName : List Char) :
    searchByName g searchName =
      some { lines := (g.rooms.filter (matchesName searchName)).map lineOf,
             found := g.rooms.any (matchesName searchName) } := by
  unfold searchByName
  rw [wellFormed_toNat hwf]
  apply filterLoop_spec
  intro s i r hget
  rw [reservationLine_eq hget]
  unfold matchesName
  by_cases hb : r.isBooked = true
  · by_cases hf : (find (lowercase r.guestName) searchName).isSome = true
    · simp [hb, hf]
    · simp [hb, hf]
  · simp [hb]

/-- The search-by-ID loop prints the line of the first room passing its test, if any. -/
theorem searchById_spec {g : Globals} (hwf : WellFormed g) (searchId : Int) :
    searchById g searchId =
      some (match g.rooms.find? (matchesId searchId) with
        | some r => { lines := [lineOf r], found := true }
        | none => { lines := [], found := false }) := by
  unfold searchById
  rw [wellFormed_toNat hwf]
  have key := forRooms_rule g.rooms
    (fun (s : QueryReport) i r =>
      if (r.isBooked && decide (r.reservationId = searchId)) = true then
        match reservationLine g i r with
        | none => none
        | some line => some (ForInStep.done { lines := s.lines ++ [line], found := true })
      else some (ForInStep.yield s))
    (fun i s => s = { lines := [], found := false } ∧
      (g.rooms.take i).find? (matchesId searchId) = none)
    (fun s => ∃ r, g.rooms.find? (matchesId searchId) = some r ∧
      s = { lines := [lineOf r], found := true })
    ?_ g.rooms.length 0 { lines := [], found := false } (by omega) (by simp)
  · obtain ⟨s, hs, hpost⟩ := key
    rw [hs]
    rcases hpost with ⟨hP, hnone⟩ | ⟨r, hr, hQ⟩
    · simp only [Nat.zero_add, List.take_length] at hnone
      rw [hnone, hP]
    · rw [hr, hQ]
  · intro s i r hget ⟨hs, hnone⟩
    by_cases hm : matchesId searchId r = true
    · right
      refine ⟨{ lines := [lineOf r], found := true }, ?_, r, ?_, rfl⟩
      · have hm2 : (r.isBooked && decide (r.reservationId = searchId)) = true := hm
        simp only
        rw [if_pos hm2, reservationLine_eq hget, hs]
        rfl
      · have hsplit : g.rooms = (g.rooms.take i ++ [r]) ++ g.rooms.drop (i + 1) := by
          rw [← take_succ_of_get hget, List.take_append_drop]
        rw [hsplit, List.find?_append, List.find?_append, hnone]
        simp [List.find?_cons, hm]
    · left
      refine ⟨s, ?_, hs, ?_⟩
      · have hm2 : ¬ (r.isBooked && decide (r.reservationId = searchId)) = true := hm
        simp only
        rw [if_neg hm2]
      · rw [take_succ_of_get hget, List.find?_append, hnone]
        simp [List.find?_cons, hm]

/-! ## Confirmed reservations -/

/-- What a confirmed reservation did: the room of the summary passed the availability
check and the commit wrote the summary into its table entry. -/
theorem confirmed_spec {g : Globals} {env : Env} {res : ReservationResult} {s : Summary}
    (h : makeReservation g env = some res) (hc : res.report = ReservationReport.confirmed s) :
    ∃ requireSingle r,
      isRoomAvailable g s.room requireSingle = some (true, none) ∧ SummaryFor g s.room r s ∧
      r.isBooked = false ∧ res.ret = s.reservationId ∧
      res.globals = { g with rooms := g.rooms.set (s.room - 1).toNat (commitRoom r s) } := by
  rcases makeReservation_spec h with ⟨-, -, h1 | ⟨e, h1⟩ | ⟨n, r, s2, h1, -⟩⟩ |
    ⟨n, rs, r, s2, ha, hs, hret, hg, h1⟩
  · rw [h1] at hc; simp at hc
  · rw [h1] at hc; simp at hc
  · rw [h1] at hc; simp at hc
  · rw [h1] at hc
    simp only [ReservationReport.confirmed.injEq] at hc
    subst hc
    have hn : s2.room = n := hs.2.1
    subst hn
    obtain ⟨-, -, -, r2, hr2, hv, -⟩ := isRoomAvailable_true ha
    have hr := hs.1
    rw [hr2] at hr
    cases hr
    exact ⟨rs, _, ha, hs, hv, hret, hg⟩

/-- After a confirmed reservation the table entry of the room is the committed room, in
the state right after the commit and in every state reached from it. -/
theorem committed_room_stays {g : Globals} {env : Env} {res : ReservationResult} {s : Summary}
    (h : makeReservation g env = some res) (hc : res.report = ReservationReport.confirmed s)
    {g2 : Globals} (hreach : ReachableFrom res.globals g2) :
    ∃ r, SummaryFor g s.room r s ∧ r.isBooked = false ∧ 1 ≤ s.room ∧ s.room ≤ g.totalRooms ∧
      g2.rooms[(s.room - 1).toNat]? = some (commitRoom r s) := by
  obtain ⟨rs, r, ha, hs, hv, -, hg⟩ := confirmed_spec h hc
  obtain ⟨-, h1, h2, -⟩ := isRoomAvailable_true ha
  obtain ⟨-, hlt, -⟩ := roomAt_eq_some hs.1
  have hext := reachableFrom_extends hreach
  have hget : res.globals.rooms[(s.room - 1).toNat]? = some (commitRoom r s) := by
    rw [hg]
    generalize (s.room - 1).toNat = k at hlt
    simp [hlt]
  obtain ⟨r2, hr2, -, -, -, hsame⟩ := hext.2.2.2.2 _ _ hget
  rw [hsame rfl] at hr2
  exact ⟨r, hs, hv, h1, h2, hr2⟩

theorem lineOf_commitRoom_total {g : Globals} {n : Int} {r : Room} {s : Summary}
    (hs : SummaryFor g n r s) : (lineOf (commitRoom r s)).totalPaid = s.totalPrice := by
  obtain ⟨-, -, -, -, -, -, -, ht⟩ := hs
  rw [ht]
  rfl

/-- In a numbered table whose entry for room `n` is the committed room, every line
printed for room number `n` shows the quoted total. -/
theorem line_total_of_room {g g2 : Globals} {r : Room} {s : Summary}
    (hs : SummaryFor g s.room r s) (hnum : Numbered g2)
    (hget : g2.rooms[(s.room - 1).toNat]? = some (commitRoom r s))
    {r2 : Room} (hmem : r2 ∈ g2.rooms) (hroom : (lineOf r2).room = s.room) :
    (lineOf r2).totalPaid = s.totalPrice := by
  obtain ⟨i, hi⟩ := List.mem_iff_getElem?.mp hmem
  have hn := (numbered_iff g2).mp hnum i r2 hi
  have hri : r2.number = s.room := hroom
  have hidx : i = (s.room - 1).toNat := by omega
  subst hidx
  rw [hi] at hget
  cases hget
  exact lineOf_commitRoom_total hs

/-! ## C5: quote and redisplay -/

/-- C5.  For every confirmed reservation made in a state with `totalRooms` numbered
rooms (every state of a run is one, `reachable_invariants`), in the state right after
the commit and in every state reached from it by menu operations, the total recomputed
for that room by `viewReservations` and by both branches of `searchReservation` is the
total shown in the reservation summary; `viewReservations` does list the room. -/
theorem quoted_total_is_redisplayed (g : Globals) (env : Env) (res : ReservationResult)
    (s : Summary) (hwf : WellFormed g) (hnum : Numbered g)
    (h : makeReservation g env = some res) (hc : res.report = ReservationReport.confirmed s)
    (g2 : Globals) (hreach : ReachableFrom res.globals g2) :
    RedisplaysQuote g2 s := by
  obtain ⟨r, hs, hv, h1, h2, hget⟩ := committed_room_stays h hc hreach
  have hext := (makeReservation_extends h).trans (reachableFrom_extends hreach)
  have hwf2 := wellFormed_of_extends hext hwf
  have hnum2 := numbered_of_extends hext hnum
  have hview : ∀ (p : Room → Bool), ∀ line ∈ (g2.rooms.filter p).map lineOf,
      line.room = s.room → line.totalPaid = s.totalPrice := by
    intro p line hline hroom
    obtain ⟨r2, hr2, rfl⟩ := List.mem_map.mp hline
    exact line_total_of_room hs hnum2 hget (List.mem_filter.mp hr2).1 hroom
  have hid : ∀ searchId rep, searchById g2 searchId = some rep →
      ∀ line ∈ rep.lines, line.room = s.room → line.totalPaid = s.totalPrice := by
    intro searchId rep hrep line hline hroom
    rw [searchById_spec hwf2] at hrep
    cases hf : g2.rooms.find? (matchesId searchId) with
    | none =>
      rw [hf] at hrep
      cases hrep
      simp at hline
    | some r2 =>
      rw [hf] at hrep
      cases hrep
      simp only [List.mem_singleton] at hline
      subst hline
      exact line_total_of_room hs hnum2 hget (List.mem_of_find?_eq_some hf) hroom
  have hname : ∀ searchName rep, searchByName g2 searchName = some rep →
      ∀ line ∈ rep.lines, line.room = s.room → line.totalPaid = s.totalPrice := by
    intro searchName rep hrep line hline hroom
    rw [searchByName_spec hwf2] at hrep
    cases hrep
    exact hview _ line hline hroom
  refine ⟨⟨_, viewReservations_spec hwf2, ?_, hview _⟩, hid, hname, ?_⟩
  · refine ⟨lineOf (commitRoom r s), ?_, ?_⟩
    · apply List.mem_map.mpr
      refine ⟨commitRoom r s, List.mem_filter.mpr ⟨?_, rfl⟩, rfl⟩
      exact List.mem_iff_getElem?.mpr ⟨_, hget⟩
    · have hn := (numbered_iff g2).mp hnum2 _ _ hget
      show (commitRoom r s).number = s.room
      omega
  · intro env2 rep env3 hsearch line hline hroom
    unfold searchReservation at hsearch
    cases ht : getValidatedInput 1 2 env2.input with
    | none => rw [ht] at hsearch; simp at hsearch
    | some p =>
      obtain ⟨searchType, input⟩ := p
      rw [ht] at hsearch
      simp only at hsearch
      by_cases h1t : searchType = 1
      · rw [if_pos h1t] at hsearch
        cases hi : getValidatedInput 10000 99999 input with
        | none => rw [hi] at hsearch; simp at hsearch
        | some q =>
          obtain ⟨searchId, input2⟩ := q
          rw [hi] at hsearch
          simp only at hsearch
          cases hrep : searchById g2 searchId with
          | none => rw [hrep] at hsearch; simp at hsearch
          | some rep2 =>
            rw [hrep] at hsearch
            simp only [Option.some.injEq, Prod.mk.injEq] at hsearch
            rw [← hsearch.1] at hline
            exact hid searchId rep2 hrep line hline hroom
      · rw [if_neg h1t] at hsearch
        cases hi : getline input with
        | none => rw [hi] at hsearch; simp at hsearch
        | some q =>
          obtain ⟨searchName, input2⟩ := q
          rw [hi] at hsearch
          simp only at hsearch
          cases hrep : searchByName g2 (lowercase searchName) with
          | none => rw [hrep] at hsearch; simp at hsearch
          | some rep2 =>
            rw [hrep] at hsearch
            simp only [Option.some.injEq, Prod.mk.injEq] at hsearch
            rw [← hsearch.1] at hline
            exact hname _ rep2 hrep line hline hroom

/-- The report of a confirmed call carries a summary. -/
theorem confirmed_of_flag {res : ReservationResult}
    (h : (match res.report with
      | ReservationReport.confirmed _ => true
      | _ => false) = true) : ∃ s, res.report = ReservationReport.confirmed s := by
  cases hr : res.report with
  | confirmed s => exact ⟨s, rfl⟩
  | noAvailableRooms => rw [hr] at h; simp at h
  | notAvailable e => rw [hr] at h; simp at h
  | cancelled s => rw [hr] at h; simp at h

/-- C5 at a confirmed system-assigned reservation on the two-room table, redisplayed
in the state right after the commit. -/
theorem quoted_total_is_redisplayed_witness :
    WellFormed twoRooms ∧ Numbered twoRooms ∧
    ∃ res s, makeReservation twoRooms ⟨singleSystemConfirmed, fun _ => 0⟩ = some res ∧
      res.report = ReservationReport.confirmed s ∧ RedisplaysQuote res.globals s := by
  obtain ⟨res, hres, hflag⟩ := exists_of_map_eq_some
    (show (makeReservation twoRooms ⟨singleSystemConfirmed, fun _ => 0⟩).map
        (fun res => match res.report with
          | ReservationReport.confirmed _ => true
          | _ => false)
      = some true by decide)
  obtain ⟨s, hs⟩ := confirmed_of_flag hflag
  exact ⟨by decide, by decide, res, s, hres, hs,
    quoted_total_is_redisplayed twoRooms _ res s (by decide) (by decide) hres hs res.globals
      Relation.ReflTransGen.refl⟩

/-! ## Runs of the program -/

theorem mainLoopBody_exit {g : Globals} {env : Env} {g2 : Globals} {env2 : Env}
    (h : mainLoopBody g env = some (false, g2, env2)) : g2 = g := by
  unfold mainLoopBody at h
  cases hc : getValidatedInput 1 5 env.input with
  | none => rw [hc] at h; simp at h
  | some p =>
    obtain ⟨choice, input⟩ := p
    rw [hc] at h
    simp only at h
    split_ifs at h
    · cases hm : makeReservation g { env with input := input } with
      | none => rw [hm] at h; simp at h
      | some res => rw [hm] at h; simp at h
    · cases hm : viewReservations g with
      | none => rw [hm] at h; simp at h
      | some res => rw [hm] at h; simp at h
    · cases hm : searchReservation g { env with input := input } with
      | none => rw [hm] at h; simp at h
      | some res => rw [hm] at h; simp at h
    · cases hm : displayAvailableRooms g with
      | none => rw [hm] at h; simp at h
      | some res => rw [hm] at h; simp at h
    · simp only [Option.some.injEq, Prod.mk.injEq, true_and] at h
      exact h.1.symm
    · simp at h

theorem mainLoop_reachable : ∀ (k : Nat) {g : Globals} {env : Env} {g2 : Globals} {env2 : Env},
    mainLoop k g env = some (g2, env2) → ReachableFrom g g2 := by
  intro k
  induction k with
  | zero =>
    intro g env g2 env2 h
    simp only [mainLoop, Option.some.injEq, Prod.mk.injEq] at h
    rw [← h.1]
    exact Relation.ReflTransGen.refl
  | succ k ih =>
    intro g env g2 env2 h
    unfold mainLoop at h
    cases hb : mainLoopBody g env with
    | none => rw [hb] at h; simp at h
    | some p =>
      obtain ⟨b, g3, env3⟩ := p
      rw [hb] at h
      cases b with
      | true =>
        simp only at h
        exact Relation.ReflTransGen.head ⟨env, env3, hb⟩ (ih h)
      | false =>
        simp only [Option.some.injEq, Prod.mk.injEq] at h
        rw [← h.1, mainLoopBody_exit hb]
        exact Relation.ReflTransGen.refl

theorem main_reachable {k : Nat} {env : Env} {g : Globals} {env2 : Env}
    (h : main k env = some (g, env2)) : Reachable g := by
  unfold main at h
  cases hi : initializeRooms Globals.start env with
  | none => rw [hi] at h; simp at h
  | some p =>
    obtain ⟨g0, env0⟩ := p
    rw [hi] at h
    exact ⟨env, g0, env0, hi, mainLoop_reachable _ h⟩

/-! ## C6: reservation IDs -/

/-- C6 (evaluation of the code at the failing input).  The run `twoReservationsRun`
reaches a state in which room 1 and room 28 are both booked and both hold the
reservation ID 14242: `generateReservationId` draws the ID without looking at the IDs
already in the table. -/
theorem reservation_ids_collide :
    ∃ g, Reachable g ∧ ∃ r1 r28,
      roomAt g.rooms (1 - 1) = some r1 ∧ roomAt g.rooms (28 - 1) = some r28 ∧
      r1.isBooked = true ∧ r28.isBooked = true ∧
      r1.reservationId = 14242 ∧ r28.reservationId = 14242 := by
  obtain ⟨p, hp, hval⟩ := exists_of_map_eq_some
    (show (main 2 twoReservationsRun).map
        (fun p => ((roomAt p.1.rooms (1 - 1)).map (fun r => (r.isBooked, r.reservationId)),
                   (roomAt p.1.rooms (28 - 1)).map (fun r => (r.isBooked, r.reservationId))))
      = some (some (true, 14242), some (true, 14242)) by decide)
  obtain ⟨g, env2⟩ := p
  simp only [Prod.mk.injEq] at hval
  obtain ⟨r1, h1, v1⟩ := exists_of_map_eq_some hval.1
  obtain ⟨r28, h28, v28⟩ := exists_of_map_eq_some hval.2
  simp only [Prod.mk.injEq] at v1 v28
  exact ⟨g, main_reachable hp, r1, r28, h1, h28, v1.1, v28.1, v1.2, v28.2⟩

/-! ## C9: occupied is permanent -/

/-- C9.  Once `makeReservation` confirms a reservation, the room of the summary was
vacant before the call, and in the state after the commit and in every state reached
from it by menu operations the room is booked and `isRoomAvailable` on it returns
false, with the message "already booked" whenever the category requirement of the
query is met by the room. -/
theorem occupied_is_permanent (g : Globals) (env : Env) (res : ReservationResult)
    (s : Summary) (h : makeReservation g env = some res)
    (hc : res.report = ReservationReport.confirmed s)
    (g2 : Globals) (hreach : ReachableFrom res.globals g2) (requireSingle : Bool) :
    (∃ r, roomAt g.rooms (s.room - 1) = some r ∧ r.isBooked = false) ∧
    ∃ r2, roomAt g2.rooms (s.room - 1) = some r2 ∧ r2.isBooked = true ∧
      ∃ e, isRoomAvailable g2 s.room requireSingle = some (false, e) ∧
        ((requireSingle = true → r2.isSingle = true) →
          e = some AvailError.alreadyBooked) := by
  obtain ⟨r, hs, hv, h1, h2, hget⟩ := committed_room_stays h hc hreach
  have hext := (makeReservation_extends h).trans (reachableFrom_extends hreach)
  have hroom : roomAt g2.rooms (s.room - 1) = some (commitRoom r s) := by
    unfold roomAt
    rw [if_neg (by omega)]
    exact hget
  refine ⟨⟨r, hs.1, hv⟩, commitRoom r s, hroom, rfl, ?_⟩
  unfold isRoomAvailable
  rw [if_neg (by rw [hext.1]; omega), hroom]
  simp only
  by_cases hcat : (requireSingle && !(commitRoom r s).isSingle) = true
  · rw [if_pos hcat]
    refine ⟨_, rfl, ?_⟩
    intro hmet
    simp only [Bool.and_eq_true, Bool.not_eq_true'] at hcat
    rw [hmet hcat.1] at hcat
    simp at hcat
  · rw [if_neg hcat, if_pos (show (commitRoom r s).isBooked = true from rfl)]
    exact ⟨_, rfl, fun _ => rfl⟩

/-- C9 at a confirmed system-assigned reservation on the two-room table, queried
without category requirement in the state right after the commit. -/
theorem occupied_is_permanent_witness :
    ∃ res s, makeReservation twoRooms ⟨singleSystemConfirmed, fun _ => 0⟩ = some res ∧
      res.report = ReservationReport.confirmed s ∧
      ∃ r2, roomAt res.globals.rooms (s.room - 1) = some r2 ∧ r2.isBooked = true ∧
        ∃ e, isRoomAvailable res.globals s.room false = some (false, e) ∧
          (((false : Bool) = true → r2.isSingle = true) →
            e = some AvailError.alreadyBooked) := by
  obtain ⟨res, hres, hflag⟩ := exists_of_map_eq_some
    (show (makeReservation twoRooms ⟨singleSystemConfirmed, fun _ => 0⟩).map
        (fun res => match res.report with
          | ReservationReport.confirmed _ => true
          | _ => false)
      = some true by decide)
  obtain ⟨s, hs⟩ := confirmed_of_flag hflag
  exact ⟨res, s, hres, hs,
    (occupied_is_permanent twoRooms _ res s hres hs res.globals
      Relation.ReflTransGen.refl false).2⟩

/-! ## C10: system-assigned room selection -/

theorem displayAvailableRooms_total {g : Globals} (hwf : WellFormed g) :
    ∃ rep, displayAvailableRooms g = some rep := by
  have total : ∀ (body : List Int × Int → Nat → Room → Option (ForInStep (List Int × Int))),
      (∀ s i r, ∃ s2, body s i r = some (ForInStep.yield s2)) →
      ∃ s2, forRooms g.rooms body g.totalRooms.toNat 0 ([], 0) = some s2 := by
    intro body hbody
    obtain ⟨s2, h2, -⟩ := forRooms_rule g.rooms body (fun _ _ => True) (fun _ => False)
      (fun s i r _ _ => Or.inl (by
        obtain ⟨s2, h2⟩ := hbody s i r
        exact ⟨s2, h2, trivial⟩))
      g.totalRooms.toNat 0 ([], 0) (by rw [wellFormed_toNat hwf]; omega) trivial
    exact ⟨s2, h2⟩
  unfold displayAvailableRooms
  obtain ⟨s1, h1⟩ := total
    (fun (s : List Int × Int) _ r =>
      if r.isSingle && !r.isBooked then some (ForInStep.yield (s.1 ++ [r.number], s.2 + 1))
      else some (ForInStep.yield s))
    (by intro s i r; simp only; split_ifs <;> exact ⟨_, rfl⟩)
  obtain ⟨s2, h2⟩ := total
    (fun (s : List Int × Int) _ r =>
      if !r.isSingle && !r.isBooked then some (ForInStep.yield (s.1 ++ [r.number], s.2 + 1))
      else some (ForInStep.yield s))
    (by intro s i r; simp only; split_ifs <;> exact ⟨_, rfl⟩)
  rw [h1, h2]
  exact ⟨_, rfl⟩

theorem isRoomAvailable_of_candidate {g : Globals} {n : Int} {requireSingle : Bool} {r : Room}
    (h1 : 1 ≤ n) (h2 : n ≤ g.totalRooms) (hr : roomAt g.rooms (n - 1) = some r)
    (hv : r.isBooked = false) (hs : r.isSingle = requireSingle) :
    isRoomAvailable g n requireSingle = some (true, none) := by
  unfold isRoomAvailable
  rw [if_neg (by omega), hr]
  subst hs
  cases hsingle : r.isSingle <;> simp [hv, hsingle]

theorem completeReservation_report {g : Globals} {n : Int} {env : Env}
    {res : ReservationResult} (h : completeReservation g n env = some res) :
    (∃ s, res.report = ReservationReport.cancelled s) ∨
    (∃ s, res.report = ReservationReport.confirmed s) := by
  obtain ⟨r, s, -, hcase⟩ := completeReservation_spec h
  rcases hcase with ⟨-, -, h3⟩ | ⟨-, -, h3⟩
  · exact Or.inl ⟨s, h3⟩
  · exact Or.inr ⟨s, h3⟩

/-- C10.  On a table of `totalRooms` rooms, for every requested type and every random
draw, the candidate list built in system mode is the strictly ascending list of the
numbers of the vacant rooms of the requested type.  If it is empty the selection
reports "no available rooms" and `makeReservation` returns -1 with the globals
unchanged; otherwise the room picked, `candidates[r mod size]`, is a member of the list,
`isRoomAvailable` succeeds on it and `makeReservation` goes on with guest details and
confirmation for that room.  A completed system-mode attempt reports "no available
rooms" exactly when the list is empty and never reports a failed availability check. -/
theorem system_assigned_selection (g : Globals) (hwf : WellFormed g) (requireSingle : Bool)
    (env : Env) :
    ∃ L, collectAvailable g requireSingle = some L ∧
      L.Pairwise (fun a b => a < b) ∧
      (∀ n : Int, n ∈ L ↔
        (1 ≤ n ∧ n ≤ g.totalRooms ∧
          ∃ r, roomAt g.rooms (n - 1) = some r ∧ r.isBooked = false ∧
            r.isSingle = requireSingle)) ∧
      (L = [] → selectRoom g requireSingle 1 env = some (Selection.noRooms, env)) ∧
      (L ≠ [] → ∃ n, L[env.rand 0 % L.length]? = some n ∧ n ∈ L ∧
        selectRoom g requireSingle 1 env = some (Selection.room n, (rand env).2) ∧
        isRoomAvailable g n requireSingle = some (true, none)) ∧
      (∀ roomTypeChoice input1 input2,
        getValidatedInput 1 2 env.input = some (roomTypeChoice, input1) →
        decide (roomTypeChoice = 1) = requireSingle →
        getValidatedInput 1 2 input1 = some (1, input2) →
        (L = [] → makeReservation g env =
          some { ret := -1, globals := g, env := { env with input := input2 },
                 report := ReservationReport.noAvailableRooms }) ∧
        (L ≠ [] → ∃ n, L[env.rand 0 % L.length]? = some n ∧
          makeReservation g env =
            completeReservation g n (rand { env with input := input2 }).2) ∧
        (∀ res, makeReservation g env = some res →
          (res.report = ReservationReport.noAvailableRooms ↔ L = []) ∧
          ∀ e, res.report ≠ ReservationReport.notAvailable e)) := by
  obtain ⟨L, hL, hsorted, hmem⟩ := collectAvailable_spec hwf requireSingle
  have hempty : ∀ env2 : Env, L = [] →
      selectRoom g requireSingle 1 env2 = some (Selection.noRooms, env2) := by
    intro env2 he
    unfold selectRoom
    rw [if_pos rfl, hL, he]
    rfl
  have hpick : ∀ env2 : Env, L ≠ [] → ∃ n, L[env2.rand 0 % L.length]? = some n ∧ n ∈ L ∧
      selectRoom g requireSingle 1 env2 = some (Selection.room n, (rand env2).2) ∧
      isRoomAvailable g n requireSingle = some (true, none) := by
    intro env2 hne
    have hpos : 0 < L.length := List.length_pos.mpr hne
    have hlt : env2.rand 0 % L.length < L.length := Nat.mod_lt _ hpos
    have hget : L[env2.rand 0 % L.length]? = some L[env2.rand 0 % L.length] :=
      List.getElem?_eq_getElem hlt
    have hin : L[env2.rand 0 % L.length] ∈ L := List.getElem_mem hlt
    obtain ⟨h1, h2, r, hr, hv, hs⟩ := (hmem _).mp hin
    refine ⟨_, hget, hin, ?_, isRoomAvailable_of_candidate h1 h2 hr hv hs⟩
    unfold selectRoom
    rw [if_pos rfl, hL]
    have hnotempty : L.isEmpty = false := by
      cases L with
      | nil => exact (hne rfl).elim
      | cons a t => rfl
    simp only [hnotempty, rand, Bool.false_eq_true, if_false]
    rw [hget]
  refine ⟨L, hL, hsorted, hmem, hempty env, hpick env, ?_⟩
  intro roomTypeChoice input1 input2 h1 hrs h2
  obtain ⟨rep, hrep⟩ := displayAvailableRooms_total hwf
  have hE : L = [] → makeReservation g env =
      some { ret := -1, globals := g, env := { env with input := input2 },
             report := ReservationReport.noAvailableRooms } := by
    intro he
    unfold makeReservation
    rw [h1]
    simp only
    rw [hrep]
    simp only
    rw [h2]
    simp only
    rw [hrs, hempty _ he]
  have hN : L ≠ [] → ∃ n, L[env.rand 0 % L.length]? = some n ∧
      makeReservation g env = completeReservation g n (rand { env with input := input2 }).2 := by
    intro hne
    obtain ⟨n, hn, -, hsel, havail⟩ := hpick { env with input := input2 } hne
    refine ⟨n, hn, ?_⟩
    unfold makeReservation
    rw [h1]
    simp only
    rw [hrep]
    simp only
    rw [h2]
    simp only
    rw [hrs, hsel]
    simp only
    rw [havail]
  refine ⟨hE, hN, ?_⟩
  intro res hres
  by_cases he : L = []
  · rw [hE he] at hres
    cases hres
    exact ⟨by simp [he], by intro e; simp⟩
  · obtain ⟨n, -, hrun⟩ := hN he
    rw [hrun] at hres
    rcases completeReservation_report hres with ⟨s, hs⟩ | ⟨s, hs⟩
    · rw [hs]
      exact ⟨by simp [he], by intro e; simp⟩
    · rw [hs]
      exact ⟨by simp [he], by intro e; simp⟩

/-- C10 at a single-room request on the two-room table. -/
theorem system_assigned_selection_witness :
    WellFormed twoRooms ∧
    ∃ L, collectAvailable twoRooms true = some L ∧ L.Pairwise (fun a b => a < b) ∧
      (L ≠ [] → ∃ n, L[(0 : Nat) % L.length]? = some n ∧ n ∈ L ∧
        selectRoom twoRooms true 1 ⟨singleSystemConfirmed, fun _ => 0⟩
          = some (Selection.room n, (rand ⟨singleSystemConfirmed, fun _ => 0⟩).2) ∧
        isRoomAvailable twoRooms n true = some (true, none)) := by
  obtain ⟨L, hL, hsorted, -, -, hpick, -⟩ :=
    system_assigned_selection twoRooms (by decide) true ⟨singleSystemConfirmed, fun _ => 0⟩
  exact ⟨by decide, L, hL, hsorted, hpick⟩

/-! ## Substring search -/

theorem startsWith_iff : ∀ (hay needle : List Char),
    startsWith hay needle = true ↔ ∃ rest, hay = needle ++ rest := by
  intro hay
  induction hay with
  | nil =>
    intro needle
    cases needle with
    | nil => simp [startsWith]
    | cons n needle => simp [startsWith]
  | cons h hay ih =>
    intro needle
    cases needle with
    | nil => simp [startsWith]
    | cons n needle =>
      simp only [startsWith, Bool.and_eq_true, beq_iff_eq, ih needle, List.cons_append,
        List.cons.injEq]
      constructor
      · rintro ⟨hn, rest, hrest⟩
        exact ⟨rest, hn, hrest⟩
      · rintro ⟨rest, hn, hrest⟩
        exact ⟨hn, rest, hrest⟩

/-- The embedded `find` succeeds exactly when the needle occurs in the haystack as a
contiguous substring. -/
theorem find_isSome_iff : ∀ (hay needle : List Char),
    (find hay needle).isSome = true ↔ Contains hay needle := by
  intro hay
  induction hay with
  | nil =>
    intro needle
    unfold find Contains
    cases needle with
    | nil => simp
    | cons n needle => simp
  | cons h hay ih =>
    intro needle
    unfold find
    by_cases hs : startsWith (h :: hay) needle = true
    · rw [if_pos hs]
      obtain ⟨rest, hrest⟩ := (startsWith_iff _ _).mp hs
      simp only [Option.isSome_some, true_iff]
      exact ⟨[], rest, by rw [hrest]; rfl⟩
    · rw [if_neg hs]
      rw [Option.isSome_map', ih needle]
      constructor
      · rintro ⟨before, after, hc⟩
        exact ⟨h :: before, after, by rw [hc]; rfl⟩
      · rintro ⟨before, after, hc⟩
        cases before with
        | nil =>
          exact (hs ((startsWith_iff _ _).mpr ⟨after, by rw [hc]; rfl⟩)).elim
        | cons b before =>
          simp only [List.cons_append, List.cons.injEq] at hc
          exact ⟨before, after, hc.2⟩

theorem matchesName_iff (searchName : String) (r : Room) :
    matchesName (lowercase searchName) r = true ↔
      (r.isBooked = true ∧ Contains (lowercase r.guestName) (lowercase searchName)) := by
  unfold matchesName
  rw [Bool.and_eq_true, find_isSome_iff]

theorem matchesId_iff (searchId : Int) (r : Room) :
    matchesId searchId r = true ↔ (r.isBooked = true ∧ r.reservationId = searchId) := by
  unfold matchesId
  rw [Bool.and_eq_true, decide_eq_true_iff]

/-! ## Room numbers in a numbered table -/

theorem rooms_pairwise_number {g : Globals} (hnum : Numbered g) :
    g.rooms.Pairwise (fun a b => a.number < b.number) := by
  have h : (g.rooms.map (fun r => r.number)).Pairwise (fun a b => a < b) := by
    unfold Numbered at hnum
    rw [hnum, List.pairwise_map]
    exact (List.pairwise_lt_range g.rooms.length).imp (by intro a b hab; omega)
  exact List.pairwise_map.mp h

theorem roomAt_iff_mem {g : Globals} (hnum : Numbered g) (n : Int) (r : Room) :
    roomAt g.rooms (n - 1) = some r ↔ (r ∈ g.rooms ∧ r.number = n) := by
  constructor
  · intro h
    obtain ⟨h0, -, hget⟩ := roomAt_eq_some h
    have hn := (numbered_iff g).mp hnum _ _ hget
    exact ⟨List.mem_iff_getElem?.mpr ⟨_, hget⟩, by omega⟩
  · rintro ⟨hmem, hn⟩
    obtain ⟨i, hi⟩ := List.mem_iff_getElem?.mp hmem
    have hni := (numbered_iff g).mp hnum i r hi
    have hidx : n = (i : Int) + 1 := by omega
    rw [hidx, roomAt_succ_sub_one]
    exact hi

/-- The room numbers printed by a loop that prints the rooms passing a test are strictly
ascending, and a number is printed exactly when the room with that number passes. -/
theorem reported_rooms {g : Globals} (hnum : Numbered g) (p : Room → Bool) :
    (((g.rooms.filter p).map lineOf).map (fun line => line.room)).Pairwise
        (fun a b => a < b) ∧
    (∀ n : Int, n ∈ ((g.rooms.filter p).map lineOf).map (fun line => line.room) ↔
      ∃ r, roomAt g.rooms (n - 1) = some r ∧ p r = true) ∧
    (∀ line ∈ (g.rooms.filter p).map lineOf,
      ∃ r, roomAt g.rooms (line.room - 1) = some r ∧ p r = true ∧ line = lineOf r) := by
  refine ⟨?_, ?_, ?_⟩
  · rw [List.map_map, List.pairwise_map]
    exact (rooms_pairwise_number hnum).filter p
  · intro n
    simp only [List.map_map, List.mem_map, List.mem_filter, Function.comp_apply]
    constructor
    · rintro ⟨r, ⟨hmem, hp⟩, hn⟩
      exact ⟨r, (roomAt_iff_mem hnum n r).mpr ⟨hmem, hn⟩, hp⟩
    · rintro ⟨r, hr, hp⟩
      obtain ⟨hmem, hn⟩ := (roomAt_iff_mem hnum n r).mp hr
      exact ⟨r, ⟨hmem, hp⟩, hn⟩
  · intro line hline
    obtain ⟨r, hr, rfl⟩ := List.mem_map.mp hline
    obtain ⟨hmem, hp⟩ := List.mem_filter.mp hr
    exact ⟨r, (roomAt_iff_mem hnum _ r).mpr ⟨hmem, rfl⟩, hp, rfl⟩

/-! ## C11: search by guest name -/

/-- C11.  On a table of `totalRooms` numbered rooms (every state of a run is one), the
search by guest name for any string `s` returns, both as the loop and as the name
branch of `searchReservation`; the room numbers it prints are strictly ascending and
are exactly the numbers of the booked rooms whose lower-cased guest name contains the
lower-cased `s` as a contiguous substring, each line being the line of its room, so no
vacant room is printed; "No reservations found" is printed exactly when there is no
such room.  The search string "ana" matches "Ana Smith" and "Juliana" and not "Bob". -/
theorem search_by_name_reports (g : Globals) (hwf : WellFormed g) (hnum : Numbered g)
    (s : String) :
    ∃ rep, searchByName g (lowercase s) = some rep ∧
      (∀ env searchType input1 input2,
        getValidatedInput 1 2 env.input = some (searchType, input1) → searchType ≠ 1 →
        getline input1 = some (s, input2) →
        searchReservation g env = some (rep, { env with input := input2 })) ∧
      (rep.lines.map (fun line => line.room)).Pairwise (fun a b => a < b) ∧
      (∀ n : Int, n ∈ rep.lines.map (fun line => line.room) ↔ BookedUnderName g s n) ∧
      (∀ line ∈ rep.lines, ∃ r, roomAt g.rooms (line.room - 1) = some r ∧
        r.isBooked = true ∧ line = lineOf r) ∧
      (rep.found = false ↔ ¬ ∃ n, BookedUnderName g s n) ∧
      (find (lowercase "Ana Smith") (lowercase "ana")).isSome = true ∧
      (find (lowercase "Juliana") (lowercase "ana")).isSome = true ∧
      (find (lowercase "Bob") (lowercase "ana")).isSome = false := by
  obtain ⟨hsorted, hmem, hlines⟩ := reported_rooms hnum (matchesName (lowercase s))
  refine ⟨_, searchByName_spec hwf (lowercase s), ?_, hsorted, ?_, ?_, ?_,
    by decide, by decide, by decide⟩
  · intro env searchType input1 input2 h1 hne h2
    unfold searchReservation
    rw [h1]
    simp only
    rw [if_neg hne, h2]
    simp only
    rw [searchByName_spec hwf (lowercase s)]
  · intro n
    rw [hmem n]
    unfold BookedUnderName
    constructor
    · rintro ⟨r, hr, hp⟩
      exact ⟨r, hr, (matchesName_iff s r).mp hp⟩
    · rintro ⟨r, hr, hp⟩
      exact ⟨r, hr, (matchesName_iff s r).mpr hp⟩
  · intro line hline
    obtain ⟨r, hr, hp, hl⟩ := hlines line hline
    exact ⟨r, hr, ((matchesName_iff s r).mp hp).1, hl⟩
  · simp only [List.any_eq_false]
    unfold BookedUnderName
    constructor
    · rintro hall ⟨n, r, hr, hp⟩
      exact hall r ((roomAt_iff_mem hnum n r).mp hr).1 ((matchesName_iff s r).mpr hp)
    · intro hnone r hmemr hp
      exact hnone ⟨r.number, r, (roomAt_iff_mem hnum _ r).mpr ⟨hmemr, rfl⟩,
        (matchesName_iff s r).mp hp⟩

/-- C11 at the search for "ana" in the table of three guests: rooms 1 and 2 are printed. -/
theorem search_by_name_reports_witness :
    WellFormed threeGuests ∧ Numbered threeGuests ∧
    ∃ rep, searchByName threeGuests (lowercase "ana") = some rep ∧
      searchReservation threeGuests ⟨[num 2, text "ana"], fun _ => 0⟩
        = some (rep, ⟨[], fun _ => 0⟩) ∧
      rep.lines.map (fun line => line.room) = [1, 2] ∧
      (rep.lines.map (fun line => line.room)).Pairwise (fun a b => a < b) ∧
      (∀ n : Int, n ∈ rep.lines.map (fun line => line.room) ↔
        BookedUnderName threeGuests "ana" n) := by
  obtain ⟨rep, hrep, hsearch, hsorted, hmem, -⟩ :=
    search_by_name_reports threeGuests (by decide) (by decide) "ana"
  have hrooms : (searchByName threeGuests (lowercase "ana")).map
      (fun rep => rep.lines.map (fun line => line.room)) = some [1, 2] := by decide
  rw [hrep] at hrooms
  exact ⟨by decide, by decide, rep, hrep,
    hsearch ⟨[num 2, text "ana"], fun _ => 0⟩ 2 [text "ana"] [] rfl (by decide) rfl,
    by simpa using hrooms, hsorted, hmem⟩

/-! ## C12: search by reservation ID -/

/-- The first room of the table passing a test has the lowest room number among the
rooms passing it. -/
theorem find_lowest {g : Globals} (hnum : Numbered g) {p : Room → Bool} {r : Room}
    (h : g.rooms.find? p = some r) :
    roomAt g.rooms (r.number - 1) = some r ∧ p r = true ∧
      ∀ (m : Int) (r2 : Room), m < r.number → roomAt g.rooms (m - 1) = some r2 →
        ¬ p r2 = true := by
  obtain ⟨hp, front, back, hsplit, hfront⟩ := List.find?_eq_some.mp h
  have hmem : r ∈ g.rooms := List.mem_of_find?_eq_some h
  refine ⟨(roomAt_iff_mem hnum _ r).mpr ⟨hmem, rfl⟩, hp, ?_⟩
  intro m r2 hlt hr2 hp2
  obtain ⟨h0, -, hget2⟩ := roomAt_eq_some hr2
  have hgetr : g.rooms[front.length]? = some r := by
    rw [hsplit, List.getElem?_append_right (Nat.le_refl _), Nat.sub_self]
    exact List.getElem?_cons_zero
  have hnr := (numbered_iff g).mp hnum _ _ hgetr
  have hidx : (m - 1).toNat < front.length := by omega
  rw [hsplit, List.getElem?_append_left hidx] at hget2
  have hin : r2 ∈ front := List.mem_iff_getElem?.mpr ⟨_, hget2⟩
  have hnot := hfront r2 hin
  rw [hp2] at hnot
  simp at hnot

/-- C12.  On a table of `totalRooms` numbered rooms (every state of a run is one), the
search by reservation ID returns, both as the loop and as the ID branch of
`searchReservation` (where the ID read lies in `[10000, 99999]`).  If no booked room
holds the ID nothing is printed and "No reservations found" is reported; otherwise
exactly one line is printed, the line of the lowest-numbered booked room holding the
ID, so no vacant room is printed. -/
theorem search_by_id_reports (g : Globals) (hwf : WellFormed g) (hnum : Numbered g)
    (searchId : Int) :
    ∃ rep, searchById g searchId = some rep ∧
      (∀ env input1 input2,
        getValidatedInput 1 2 env.input = some (1, input1) →
        getValidatedInput 10000 99999 input1 = some (searchId, input2) →
        (10000 ≤ searchId ∧ searchId ≤ 99999) ∧
        searchReservation g env = some (rep, { env with input := input2 })) ∧
      ((¬ ∃ n, BookedUnderId g searchId n) → rep.lines = [] ∧ rep.found = false) ∧
      ((∃ n, BookedUnderId g searchId n) →
        ∃ n r, roomAt g.rooms (n - 1) = some r ∧ r.isBooked = true ∧
          r.reservationId = searchId ∧ (∀ m, m < n → ¬ BookedUnderId g searchId m) ∧
          rep.lines = [lineOf r] ∧ (lineOf r).room = n ∧ rep.found = true) := by
  refine ⟨_, searchById_spec hwf searchId, ?_, ?_, ?_⟩
  · intro env input1 input2 h1 h2
    refine ⟨getValidatedInput_range h2, ?_⟩
    unfold searchReservation
    rw [h1]
    simp only
    rw [if_pos trivial, h2]
    simp only
    rw [searchById_spec hwf searchId]
  · intro hnone
    cases hf : g.rooms.find? (matchesId searchId) with
    | none => exact ⟨rfl, rfl⟩
    | some r =>
      obtain ⟨hr, hp, -⟩ := find_lowest hnum hf
      exact (hnone ⟨r.number, r, hr, (matchesId_iff searchId r).mp hp⟩).elim
  · rintro ⟨n, r, hr, hb, hid⟩
    cases hf : g.rooms.find? (matchesId searchId) with
    | none =>
      have hall := List.find?_eq_none.mp hf r ((roomAt_iff_mem hnum n r).mp hr).1
      exact (hall ((matchesId_iff searchId r).mpr ⟨hb, hid⟩)).elim
    | some r1 =>
      obtain ⟨hr1, hp1, hlow⟩ := find_lowest hnum hf
      obtain ⟨hb1, hid1⟩ := (matchesId_iff searchId r1).mp hp1
      refine ⟨r1.number, r1, hr1, hb1, hid1, ?_, rfl, rfl, rfl⟩
      rintro m hm ⟨r2, hr2, hb2, hid2⟩
      exact hlow m r2 hm hr2 ((matchesId_iff searchId r2).mpr ⟨hb2, hid2⟩)

/-- C12 at the search for the ID 22222 in the table of three guests: room 2 is printed. -/
theorem search_by_id_reports_witness :
    WellFormed threeGuests ∧ Numbered threeGuests ∧
    ∃ rep, searchById threeGuests 22222 = some rep ∧
      searchReservation threeGuests ⟨[num 1, num 22222], fun _ => 0⟩
        = some (rep, ⟨[], fun _ => 0⟩) ∧
      rep.lines.map (fun line => (line.room, line.guestName)) = [(2, "Juliana")] ∧
      ((∃ n, BookedUnderId threeGuests 22222 n) →
        ∃ n r, roomAt threeGuests.rooms (n - 1) = some r ∧ r.isBooked = true ∧
          r.reservationId = 22222 ∧ (∀ m, m < n → ¬ BookedUnderId threeGuests 22222 m) ∧
          rep.lines = [lineOf r] ∧ (lineOf r).room = n ∧ rep.found = true) := by
  obtain ⟨rep, hrep, hsearch, -, hsome⟩ :=
    search_by_id_reports threeGuests (by decide) (by decide) 22222
  have hrooms : (searchById threeGuests 22222).map
      (fun rep => rep.lines.map (fun line => (line.room, line.guestName)))
      = some [(2, "Juliana")] := by decide
  rw [hrep] at hrooms
  exact ⟨by decide, by decide, rep, hrep,
    (hsearch ⟨[num 1, num 22222], fun _ => 0⟩ [num 22222] [] rfl rfl).2,
    by simpa using hrooms, hsome⟩

end Hotel
